import Mathlib

/-!
Verification development for the MMI baseball scoring engine
(packages/mmi-baseball/mmi): the win-probability / leverage model
(win_prob.py), feature calculators (features.py), z-score scalers
(scaling.py), the MMI orchestrator (mmi_core.py) and the per-player
summary aggregation (aggregate.py), shallowly embedded over the reals.
Python floats are modelled as real numbers, Python ints as `ℕ`/`ℤ`,
`None`-able values as `Option`, raised `ValueError`s as `Except.error`,
and the wall clock read by `datetime.utcnow()` as an explicit input.
-/

noncomputable section

namespace MMI

/-- Base runner state (models.py, `BaseState`). -/
structure BaseState where
  runner_on_first : Bool := false
  runner_on_second : Bool := false
  runner_on_third : Bool := false
deriving DecidableEq

/-- Standard base code, e.g. "___", "1__", "123" (models.py, `BaseState.to_code`). -/
def BaseState.to_code (b : BaseState) : String :=
  (if b.runner_on_first then "1" else "_") ++
  (if b.runner_on_second then "2" else "_") ++
  (if b.runner_on_third then "3" else "_")

/-- Count of runners on base (models.py, `BaseState.runners_on_base`). -/
def BaseState.runners_on_base (b : BaseState) : ℕ :=
  (if b.runner_on_first then 1 else 0) +
  (if b.runner_on_second then 1 else 0) +
  (if b.runner_on_third then 1 else 0)

/-- Run expectancy matrix lookup (win_prob.py, `RUN_EXPECTANCY_MATRIX`);
the Python dict `.get((outs, code), 0.0)` returns `0.0` on a missing key,
which the final catch-all arm models. -/
def run_expectancy_matrix (outs : ℕ) (code : String) : ℝ :=
  if outs = 0 then
    if code = "___" then 0.481
    else if code = "1__" then 0.859
    else if code = "_2_" then 1.100
    else if code = "__3" then 1.361
    else if code = "12_" then 1.437
    else if code = "1_3" then 1.784
    else if code = "_23" then 1.970
    else if code = "123" then 2.292
    else 0.0
  else if outs = 1 then
    if code = "___" then 0.254
    else if code = "1__" then 0.509
    else if code = "_2_" then 0.664
    else if code = "__3" then 0.950
    else if code = "12_" then 0.888
    else if code = "1_3" then 1.140
    else if code = "_23" then 1.352
    else if code = "123" then 1.541
    else 0.0
  else if outs = 2 then
    if code = "___" then 0.098
    else if code = "1__" then 0.214
    else if code = "_2_" then 0.305
    else if code = "__3" then 0.362
    else if code = "12_" then 0.421
    else if code = "1_3" then 0.561
    else if code = "_23" then 0.570
    else if code = "123" then 0.772
    else 0.0
  else 0.0

/-- Run expectancy for a base-out state (win_prob.py, `WinProbabilityModel._get_run_expectancy`). -/
def get_run_expectancy (outs : ℕ) (base_state : BaseState) : ℝ :=
  run_expectancy_matrix outs base_state.to_code

/-- Historical home-team win rate (win_prob.py, `WinProbabilityModel.__init__`, `self.home_advantage`). -/
def home_advantage : ℝ := 0.54

/-- Sigmoid 1/(1+exp(-x)) (win_prob.py, `WinProbabilityModel._sigmoid`).
The Python `OverflowError` guard only compensates for float overflow;
real-number exponentials never overflow, so the `try` body is total here. -/
def sigmoid (x : ℝ) : ℝ := 1.0 / (1.0 + Real.exp (-x))

/-- Win probability for the home team
(win_prob.py, `WinProbabilityModel.calculate_win_prob`). -/
def calculate_win_prob (inning : ℕ) (top_of_inning : Bool) (outs : ℕ)
    (base_state : BaseState) (home_score away_score : ℕ)
    (is_home_batting : Bool) : ℝ :=
  let innings_remaining : ℤ :=
    (9 - (inning : ℤ)) * 2 + (if top_of_inning then 0 else 1)
  if 9 ≤ inning ∧ top_of_inning = false ∧ away_score < home_score then 1.0
  else if 9 < inning ∧ top_of_inning = true ∧ home_score ≠ away_score then
    (if away_score < home_score then 1.0 else 0.0)
  else
    let score_diff : ℝ := (home_score : ℝ) - (away_score : ℝ)
    let run_expectancy := get_run_expectancy outs base_state
    let effective_diff :=
      if is_home_batting then score_diff + run_expectancy
      else score_diff - run_expectancy
    if innings_remaining = 0 then
      (if away_score < home_score then 1.0
       else if home_score = away_score then 0.5 else 0.0)
    else
      let innings_factor : ℝ := max 0.5 (innings_remaining : ℝ)
      let std_dev := 2.0 * Real.sqrt innings_factor
      let z_score := effective_diff / std_dev
      let win_prob := sigmoid z_score
      let win_prob :=
        if |score_diff| ≤ 2 ∧ inning ≤ 5 then
          win_prob * 0.9 + home_advantage * 0.1
        else win_prob
      max 0.0 (min 1.0 win_prob)

example : get_run_expectancy 0 ⟨false, false, false⟩ = 0.481 := by
  simp [get_run_expectancy, run_expectancy_matrix, BaseState.to_code]

example : get_run_expectancy 2 ⟨true, false, true⟩ = 0.561 := by
  simp [get_run_expectancy, run_expectancy_matrix, BaseState.to_code]

example : calculate_win_prob 9 true 0 ⟨false, false, false⟩ 0 0 false = 0.5 := by
  norm_num [calculate_win_prob]

/-- Leverage index from the three canonical next-play outcomes
(win_prob.py, `WinProbabilityModel.calculate_leverage_index`). -/
def calculate_leverage_index (inning : ℕ) (top_of_inning : Bool) (outs : ℕ)
    (base_state : BaseState) (home_score away_score : ℕ) : ℝ :=
  let is_home_batting := !top_of_inning
  let wp_current := calculate_win_prob inning top_of_inning outs base_state
    home_score away_score is_home_batting
  -- Scenario 1: walk or single (runner to first, existing runners advance one base)
  let new_base_walk : BaseState :=
    ⟨true, base_state.runner_on_first || base_state.runner_on_second,
     base_state.runner_on_third⟩
  let runs_scored_walk : ℕ := if base_state.runner_on_third then 1 else 0
  let new_home_walk := home_score + (if is_home_batting then runs_scored_walk else 0)
  let new_away_walk := away_score + (if !is_home_batting then runs_scored_walk else 0)
  let wp_walk := calculate_win_prob inning top_of_inning outs new_base_walk
    new_home_walk new_away_walk is_home_batting
  let swings₁ : List ℝ := [|wp_walk - wp_current|]
  -- Scenario 2: out (no advancement), only appended while new outs stay ≤ 2
  let new_outs_out := outs + 1
  let swings₂ : List ℝ :=
    if new_outs_out ≤ 2 then
      swings₁ ++ [|calculate_win_prob inning top_of_inning new_outs_out base_state
        home_score away_score is_home_batting - wp_current|]
    else swings₁
  -- Scenario 3: home run (clear bases, score all runs)
  let runs_scored_hr := 1 + base_state.runners_on_base
  let new_home_hr := home_score + (if is_home_batting then runs_scored_hr else 0)
  let new_away_hr := away_score + (if !is_home_batting then runs_scored_hr else 0)
  let wp_hr := calculate_win_prob inning top_of_inning outs ⟨false, false, false⟩
    new_home_hr new_away_hr is_home_batting
  let swings : List ℝ := swings₂ ++ [|wp_hr - wp_current|]
  let avg_swing := if swings.length ≠ 0 then swings.sum / swings.length else 0.0
  let leverage_index := avg_swing / 0.05
  max 0.0 leverage_index

/-- Ball-strike count (models.py, `Count`). -/
structure Count where
  balls : ℕ
  strikes : ℕ
deriving DecidableEq

/-- Count favouring the hitter (models.py, `Count.is_hitters_count`). -/
def Count.hittersCount (c : Count) : Prop := 2 ≤ c.balls ∧ c.strikes ≤ 1

/-- Count favouring the pitcher (models.py, `Count.is_pitchers_count`). -/
def Count.pitchersCount (c : Count) : Prop := c.strikes = 2 ∧ c.balls ≤ 1

instance (c : Count) : Decidable c.hittersCount := by
  unfold Count.hittersCount; infer_instance

instance (c : Count) : Decidable c.pitchersCount := by
  unfold Count.pitchersCount; infer_instance

/-- A single pitch record (models.py, `PitchEvent`). The free-form `meta`
dict is omitted: no core computation reads it. `datetime` values are
modelled as real timestamps. -/
structure PitchEvent where
  game_id : String
  pitch_id : Option String := none
  at_bat_index : ℕ
  pitch_number : ℕ
  game_date : ℝ := 0
  inning : ℕ
  top_of_inning : Bool
  batter_id : String
  batter_name : Option String := none
  batter_team : String := ""
  pitcher_id : String
  pitcher_name : Option String := none
  pitcher_team : String := ""
  home_team : String := ""
  away_team : String := ""
  outs : ℕ
  base_state : BaseState
  count : Count
  home_score : ℕ
  away_score : ℕ
  pitch_type : Option String := none
  velocity : Option ℝ := none
  release_speed : Option ℝ := none
  plate_x : Option ℝ := none
  plate_z : Option ℝ := none
  pitch_result : String := "ball"
  is_final_pitch_of_pa : Bool := false
  wp_before : Option ℝ := none
  wp_after : Option ℝ := none
  venue : Option String := none
  attendance : Option ℕ := none
  is_postseason : Bool := false
  is_elimination_game : Bool := false
  time_since_last_pitch : Option ℝ := none

/-- Score differential from the batting team's perspective
(models.py, `PitchEvent.score_differential`). -/
def PitchEvent.score_differential (p : PitchEvent) : ℤ :=
  if p.top_of_inning then (p.away_score : ℤ) - p.home_score
  else (p.home_score : ℤ) - p.away_score

/-- The leverage memo cache, a Python dict from string keys to floats,
modelled as an insertion-ordered association list
(win_prob.py, `LeverageIndexCalculator.__init__`, `self._cache`). -/
abbrev LeverageCache := List (String × ℝ)

/-- Dict lookup: the value stored at the first matching key. -/
def cacheLookup (cache : LeverageCache) (key : String) : Option ℝ :=
  match cache with
  | [] => none
  | (k, v) :: rest => if k = key then some v else cacheLookup rest key

/-- Dict insertion of a fresh key (only performed on a cache miss). -/
def cacheInsert (cache : LeverageCache) (key : String) (v : ℝ) : LeverageCache :=
  cache ++ [(key, v)]

/-- Cache key built from the six game-state fields
(win_prob.py, `LeverageIndexCalculator._make_cache_key`). -/
def make_cache_key (p : PitchEvent) : String :=
  toString p.inning ++ "_" ++ (if p.top_of_inning then "True" else "False") ++ "_" ++
  toString p.outs ++ "_" ++ p.base_state.to_code ++ "_" ++
  toString p.home_score ++ "_" ++ toString p.away_score

/-- Memoized leverage for a pitch; returns the value and the updated cache
(win_prob.py, `LeverageIndexCalculator.calculate_leverage_for_pitch`). -/
def calculate_leverage_for_pitch (cache : LeverageCache) (p : PitchEvent) :
    ℝ × LeverageCache :=
  let cache_key := make_cache_key p
  match cacheLookup cache cache_key with
  | some v => (v, cache)
  | none =>
    let leverage := calculate_leverage_index p.inning p.top_of_inning p.outs
      p.base_state p.home_score p.away_score
    (leverage, cacheInsert cache cache_key leverage)

lemma sigmoid_pos (x : ℝ) : 0 < sigmoid x := by
  unfold sigmoid
  positivity

lemma one_add_exp_pos (x : ℝ) : (0 : ℝ) < 1 + Real.exp x := by positivity

lemma sigmoid_lt_one (x : ℝ) : sigmoid x < 1 := by
  unfold sigmoid
  rw [div_lt_one (by positivity)]
  nlinarith [Real.exp_pos (-x)]

lemma sigmoid_mono {x y : ℝ} (h : x ≤ y) : sigmoid x ≤ sigmoid y := by
  unfold sigmoid
  have hx := Real.exp_pos (-x)
  have hy := Real.exp_pos (-y)
  have hle : Real.exp (-y) ≤ Real.exp (-x) := Real.exp_le_exp.mpr (by linarith)
  rw [div_le_div_iff (by positivity) (by positivity)]
  nlinarith

lemma sigmoid_neg_eq (x : ℝ) : sigmoid (-x) = 1 - sigmoid x := by
  unfold sigmoid
  have h1 := Real.exp_pos x
  have h2 := Real.exp_pos (-x)
  have hmul : Real.exp x * Real.exp (-x) = 1 := by
    rw [← Real.exp_add]; simp
  field_simp
  nlinarith

lemma sigmoid_lt_half {x : ℝ} (h : x < 0) : sigmoid x < 1 / 2 := by
  unfold sigmoid
  have hgt : 1 < Real.exp (-x) := by
    rw [show (1:ℝ) = Real.exp 0 by simp]
    exact Real.exp_lt_exp.mpr (by linarith)
  rw [div_lt_iff (by positivity)]
  nlinarith

/-- Win probability computed exactly as steps 2-6 of section 4.2 of the
specification prescribe, with no further shortcut: `halfInningsRemaining`
floored at 0.5, `effectiveDiff = scoreDiff ± expectedRuns`,
`stdDev = 2*sqrt(max(0.5, halfInningsRemaining))`, `wp = sigmoid(z)`,
the 0.9/0.1 home-advantage blend when `|scoreDiff| ≤ 2` and `inning ≤ 5`,
and a final clamp to [0,1]. Written from the spec text, to be compared
with `calculate_win_prob` as embedded from the source. -/
def spec_win_prob_steps (inning : ℕ) (top : Bool) (outs : ℕ) (b : BaseState)
    (hs as : ℕ) (ihb : Bool) : ℝ :=
  let halfInningsRemaining : ℝ :=
    max 0.5 ((((9 - (inning : ℤ)) * 2 + (if top then 0 else 1) : ℤ)) : ℝ)
  let scoreDiff : ℝ := (hs : ℝ) - (as : ℝ)
  let expectedRuns := get_run_expectancy outs b
  let effectiveDiff :=
    if ihb then scoreDiff + expectedRuns else scoreDiff - expectedRuns
  let stdDev := 2 * Real.sqrt (max 0.5 halfInningsRemaining)
  let wp := sigmoid (effectiveDiff / stdDev)
  let wp :=
    if |scoreDiff| ≤ 2 ∧ inning ≤ 5 then 0.9 * wp + 0.1 * 0.54 else wp
  max 0 (min 1 wp)

lemma max_half_max_half (r : ℝ) : max 0.5 (max 0.5 r) = max 0.5 r := by
  rw [← max_assoc, max_self]

/-- C1 counterexample input: top of the 9th, tied game, bases empty. The
code returns 0.5 from the `innings_remaining == 0` early return; steps 2-6
of the spec yield a sigmoid value strictly below 0.5. -/
theorem c1_top_ninth_counterexample :
    calculate_win_prob 9 true 0 ⟨false, false, false⟩ 0 0 false ≠
      spec_win_prob_steps 9 true 0 ⟨false, false, false⟩ 0 0 false := by
  have hcode : calculate_win_prob 9 true 0 ⟨false, false, false⟩ 0 0 false = 0.5 := by
    norm_num [calculate_win_prob]
  have hre : get_run_expectancy 0 ⟨false, false, false⟩ = 0.481 := by
    simp [get_run_expectancy, run_expectancy_matrix, BaseState.to_code]
  have hspec : spec_win_prob_steps 9 true 0 ⟨false, false, false⟩ 0 0 false < 0.5 := by
    unfold spec_win_prob_steps
    simp only [hre]
    norm_num
    apply sigmoid_lt_half
    apply div_neg_of_neg_of_pos
    · norm_num
    · positivity
  rw [hcode]
  exact ne_of_gt hspec

/-- C1 (amended): outside the step-1 terminal shortcuts and outside the top
of inning 9 (where `innings_remaining == 0` makes the code return
1.0/0.5/0.0 by score rather than the sigmoid value), `calculate_win_prob`
agrees exactly with steps 2-6 of the spec. -/
theorem calculate_win_prob_eq_spec_steps (inning outs : ℕ) (top ihb : Bool)
    (b : BaseState) (hs as : ℕ)
    (hno1 : ¬(9 ≤ inning ∧ top = false ∧ as < hs))
    (hno2 : ¬(9 < inning ∧ top = true ∧ hs ≠ as))
    (hno3 : ¬(inning = 9 ∧ top = true)) :
    calculate_win_prob inning top outs b hs as ihb =
      spec_win_prob_steps inning top outs b hs as ihb := by
  have hrem : ¬((9 - (inning : ℤ)) * 2 + (if top then 0 else 1) = 0) := by
    cases top with
    | false => intro h; simp at h; omega
    | true =>
      intro h
      simp at h
      exact hno3 ⟨by omega, rfl⟩
  unfold calculate_win_prob spec_win_prob_steps
  rw [if_neg hno1, if_neg hno2, if_neg hrem]
  simp only [max_half_max_half]
  norm_num [home_advantage]
  split_ifs <;> first
  | rfl
  | (congr 1; congr 1; ring)

/-- Witness for `calculate_win_prob_eq_spec_steps` at inning 3, top,
runner on first, one out, score 2-1, home side batting flag false. -/
theorem calculate_win_prob_eq_spec_steps_witness :
    ¬(9 ≤ 3 ∧ true = false ∧ 1 < 2) ∧ ¬(9 < 3 ∧ true = true ∧ 2 ≠ 1) ∧
      ¬(3 = 9 ∧ true = true) ∧
      calculate_win_prob 3 true 1 ⟨true, false, false⟩ 2 1 false =
        spec_win_prob_steps 3 true 1 ⟨true, false, false⟩ 2 1 false :=
  ⟨by decide, by decide, by decide,
    calculate_win_prob_eq_spec_steps 3 1 true false ⟨true, false, false⟩ 2 1
      (by decide) (by decide) (by decide)⟩

/-- C2: the leverage returned for a pitch, and the memo cache key, depend
only on the six game-state fields (inning, half, outs, base state, home
score, away score); any two pitch events agreeing on those six fields get
the same cache key, the same leverage value and the same updated cache,
whatever their other fields and whatever the cache contents. -/
theorem leverage_depends_only_on_game_state (cache : LeverageCache)
    (p₁ p₂ : PitchEvent)
    (h1 : p₁.inning = p₂.inning) (h2 : p₁.top_of_inning = p₂.top_of_inning)
    (h3 : p₁.outs = p₂.outs) (h4 : p₁.base_state = p₂.base_state)
    (h5 : p₁.home_score = p₂.home_score) (h6 : p₁.away_score = p₂.away_score) :
    make_cache_key p₁ = make_cache_key p₂ ∧
      calculate_leverage_for_pitch cache p₁ = calculate_leverage_for_pitch cache p₂ := by
  have hk : make_cache_key p₁ = make_cache_key p₂ := by
    unfold make_cache_key
    rw [h1, h2, h3, h4, h5, h6]
  refine ⟨hk, ?_⟩
  unfold calculate_leverage_for_pitch
  rw [hk, h1, h2, h3, h4, h5, h6]

/-- A concrete pitch event used as a witness input. -/
def samplePitch : PitchEvent where
  game_id := "G2024"
  at_bat_index := 4
  pitch_number := 2
  inning := 9
  top_of_inning := false
  batter_id := "B100"
  pitcher_id := "P200"
  outs := 2
  base_state := ⟨false, true, true⟩
  count := ⟨3, 2⟩
  home_score := 3
  away_score := 2

/-- Witness for `leverage_depends_only_on_game_state`: changing the batter
id, pitch velocity and attendance of `samplePitch` changes neither the
cache key nor the memoized leverage computation, on the empty cache. -/
theorem leverage_depends_only_on_game_state_witness :
    make_cache_key samplePitch =
      make_cache_key { samplePitch with
        batter_id := "B999", velocity := some 98.6, attendance := some 40000 } ∧
      calculate_leverage_for_pitch [] samplePitch =
        calculate_leverage_for_pitch [] { samplePitch with
          batter_id := "B999", velocity := some 98.6, attendance := some 40000 } :=
  leverage_depends_only_on_game_state [] _ _ rfl rfl rfl rfl rfl rfl

/-- Z-score scaler parameters (scaling.py, `Scaler`). -/
structure Scaler where
  mean : ℝ
  std : ℝ
  name : String

/-- Scaler construction (scaling.py, `Scaler.__init__`): a zero standard
deviation is substituted with 1.0. -/
def Scaler.make (mean std : ℝ) (name : String) : Scaler :=
  ⟨mean, if std = 0 then 1.0 else std, name⟩

/-- Z-score transform (scaling.py, `Scaler.transform`). -/
def Scaler.transform (s : Scaler) (value : ℝ) : ℝ :=
  if s.std = 0 then 0.0 else (value - s.mean) / s.std

/-- Inverse transform back to the original scale
(scaling.py, `Scaler.inverse_transform`). -/
def Scaler.inverse_transform (s : Scaler) (z_score : ℝ) : ℝ :=
  z_score * s.std + s.mean

/-- Fitting from data (scaling.py, `Scaler.fit`): arithmetic mean and
population standard deviation (divisor N), with a fitted std of 0
substituted by 1.0; an empty value list leaves the scaler unchanged. -/
def Scaler.fit (s : Scaler) (values : List ℝ) : Scaler :=
  if values = [] then s
  else
    let n : ℝ := values.length
    let mean := values.sum / n
    let variance := (values.map (fun x => (x - mean) ^ 2)).sum / n
    let std := Real.sqrt variance
    ⟨mean, if std = 0 then 1.0 else std, s.name⟩

/-- C7: for any scaler with positive std, the transform sends the mean to
0 and inverse_transform inverts transform exactly; moreover construction
and fitting never leave a zero std (so the transform never divides by
zero), and fitting a constant list yields an effective std of exactly 1. -/
theorem scaler_transform_props (m s x : ℝ) (nm : String) (hs : 0 < s) :
    Scaler.transform ⟨m, s, nm⟩ m = 0 ∧
    Scaler.inverse_transform ⟨m, s, nm⟩ (Scaler.transform ⟨m, s, nm⟩ x) = x ∧
    (∀ s₀ : ℝ, (Scaler.make m s₀ nm).std ≠ 0) ∧
    (∀ (sc : Scaler) (values : List ℝ), values ≠ [] → (sc.fit values).std ≠ 0) ∧
    (∀ (sc : Scaler) (c : ℝ) (k : ℕ), (sc.fit (List.replicate (k + 1) c)).std = 1) := by
  have hs0 : s ≠ 0 := ne_of_gt hs
  refine ⟨?_, ?_, ?_, ?_, ?_⟩
  · simp [Scaler.transform, hs0]
  · simp only [Scaler.transform, Scaler.inverse_transform, hs0, if_false]
    field_simp
  · intro s₀
    unfold Scaler.make
    dsimp only
    split
    · norm_num
    · assumption
  · intro sc values hne
    unfold Scaler.fit
    rw [if_neg hne]
    dsimp only
    split
    · norm_num
    · assumption
  · intro sc c k
    unfold Scaler.fit
    rw [if_neg (by simp)]
    dsimp only
    have hmean : (List.replicate (k + 1) c).sum /
        ((List.replicate (k + 1) c).length : ℝ) = c := by
      rw [List.sum_replicate, List.length_replicate, nsmul_eq_mul]
      push_cast
      field_simp
    rw [hmean]
    norm_num [List.map_replicate, List.sum_replicate]

/-- Witness for `scaler_transform_props` at mean 2, std 3, input 5. -/
theorem scaler_transform_props_witness :
    (0 : ℝ) < 3 ∧
      (Scaler.transform ⟨2, 3, "leverage_index"⟩ 2 = 0 ∧
        Scaler.inverse_transform ⟨2, 3, "leverage_index"⟩
          (Scaler.transform ⟨2, 3, "leverage_index"⟩ 5) = 5 ∧
        (∀ s₀ : ℝ, (Scaler.make 2 s₀ "leverage_index").std ≠ 0) ∧
        (∀ (sc : Scaler) (values : List ℝ), values ≠ [] →
          (sc.fit values).std ≠ 0) ∧
        (∀ (sc : Scaler) (c : ℝ) (k : ℕ),
          (sc.fit (List.replicate (k + 1) c)).std = 1)) :=
  ⟨by norm_num, scaler_transform_props 2 3 5 "leverage_index" (by norm_num)⟩

/-- The full scaler set (scaling.py, `MMIScalerSet`), five named scalers
plus fit metadata; `datetime` is modelled as a real timestamp. -/
structure MMIScalerSet where
  leverage_scaler : Scaler
  pressure_scaler : Scaler
  fatigue_scaler : Scaler
  execution_scaler : Scaler
  bio_scaler : Scaler
  season : Option ℤ := none
  season_type : String := "regular"
  total_pitches : ℕ := 0
  last_updated : Option ℝ := none

/-- Z-scores of the five components (the dict returned by
scaling.py, `MMIScalerSet.transform_all`). -/
structure ZScores where
  z_leverage : ℝ
  z_pressure : ℝ
  z_fatigue : ℝ
  z_execution : ℝ
  z_bio : ℝ

/-- scaling.py, `MMIScalerSet.transform_all`. -/
def MMIScalerSet.transform_all (S : MMIScalerSet)
    (leverage pressure fatigue execution bio : ℝ) : ZScores where
  z_leverage := S.leverage_scaler.transform leverage
  z_pressure := S.pressure_scaler.transform pressure
  z_fatigue := S.fatigue_scaler.transform fatigue
  z_execution := S.execution_scaler.transform execution
  z_bio := S.bio_scaler.transform bio

/-- One scaler entry of the persisted JSON document
(scaling.py, `Scaler.to_dict`). -/
structure ScalerDocEntry where
  name : String
  mean : ℝ
  std : ℝ

/-- The metadata object of the persisted JSON document
(scaling.py, `MMIScalerSet.save`). -/
structure ScalerDocMetadata where
  season : Option ℤ
  season_type : String
  total_pitches : ℕ
  last_updated : Option ℝ

/-- The persisted JSON document: metadata plus the five named scalers
(scaling.py, `MMIScalerSet.save` / `MMIScalerSet.load`). -/
structure ScalerDoc where
  metadata : ScalerDocMetadata
  leverage : ScalerDocEntry
  pressure : ScalerDocEntry
  fatigue : ScalerDocEntry
  execution : ScalerDocEntry
  bio_proxies : ScalerDocEntry

/-- scaling.py, `Scaler.to_dict`. -/
def Scaler.to_dict (s : Scaler) : ScalerDocEntry := ⟨s.name, s.mean, s.std⟩

/-- scaling.py, `Scaler.from_dict`; goes through the constructor, so a
persisted std of exactly 0 would be replaced by 1.0. -/
def Scaler.from_dict (d : ScalerDocEntry) : Scaler :=
  Scaler.make d.mean d.std d.name

/-- Serialization to the JSON document (scaling.py, `MMIScalerSet.save`);
the file write itself is I/O performed on the produced document. -/
def MMIScalerSet.save (S : MMIScalerSet) : ScalerDoc where
  metadata := ⟨S.season, S.season_type, S.total_pitches, S.last_updated⟩
  leverage := S.leverage_scaler.to_dict
  pressure := S.pressure_scaler.to_dict
  fatigue := S.fatigue_scaler.to_dict
  execution := S.execution_scaler.to_dict
  bio_proxies := S.bio_scaler.to_dict

/-- Deserialization from the JSON document (scaling.py, `MMIScalerSet.load`). -/
def MMIScalerSet.load (d : ScalerDoc) : MMIScalerSet where
  leverage_scaler := Scaler.from_dict d.leverage
  pressure_scaler := Scaler.from_dict d.pressure
  fatigue_scaler := Scaler.from_dict d.fatigue
  execution_scaler := Scaler.from_dict d.execution
  bio_scaler := Scaler.from_dict d.bio_proxies
  season := d.metadata.season
  season_type := d.metadata.season_type
  total_pitches := d.metadata.total_pitches
  last_updated := d.metadata.last_updated

/-- C8: persisting a scaler set and reading it back reproduces all five
(mean, std) parameter pairs exactly. The std hypotheses record the class
invariant: every scaler the system builds goes through `Scaler.make` or
`Scaler.fit`, which never leave a zero std (see `scaler_transform_props`). -/
theorem scaler_set_save_load_roundtrip (S : MMIScalerSet)
    (h1 : S.leverage_scaler.std ≠ 0) (h2 : S.pressure_scaler.std ≠ 0)
    (h3 : S.fatigue_scaler.std ≠ 0) (h4 : S.execution_scaler.std ≠ 0)
    (h5 : S.bio_scaler.std ≠ 0) :
    (MMIScalerSet.load (MMIScalerSet.save S)).leverage_scaler.mean =
        S.leverage_scaler.mean ∧
    (MMIScalerSet.load (MMIScalerSet.save S)).leverage_scaler.std =
        S.leverage_scaler.std ∧
    (MMIScalerSet.load (MMIScalerSet.save S)).pressure_scaler.mean =
        S.pressure_scaler.mean ∧
    (MMIScalerSet.load (MMIScalerSet.save S)).pressure_scaler.std =
        S.pressure_scaler.std ∧
    (MMIScalerSet.load (MMIScalerSet.save S)).fatigue_scaler.mean =
        S.fatigue_scaler.mean ∧
    (MMIScalerSet.load (MMIScalerSet.save S)).fatigue_scaler.std =
        S.fatigue_scaler.std ∧
    (MMIScalerSet.load (MMIScalerSet.save S)).execution_scaler.mean =
        S.execution_scaler.mean ∧
    (MMIScalerSet.load (MMIScalerSet.save S)).execution_scaler.std =
        S.execution_scaler.std ∧
    (MMIScalerSet.load (MMIScalerSet.save S)).bio_scaler.mean =
        S.bio_scaler.mean ∧
    (MMIScalerSet.load (MMIScalerSet.save S)).bio_scaler.std =
        S.bio_scaler.std := by
  simp [MMIScalerSet.load, MMIScalerSet.save, Scaler.from_dict, Scaler.to_dict,
    Scaler.make, h1, h2, h3, h4, h5]

/-- Default scaler set (scaling.py, `create_default_scalers`); the season
stamp `datetime.now().year` and `datetime.utcnow()` are wall-clock inputs. -/
def create_default_scalers (year : ℤ := 2024) (now : ℝ := 0) : MMIScalerSet where
  leverage_scaler := Scaler.make 1.0 0.5 "leverage_index"
  pressure_scaler := Scaler.make 3.0 1.5 "pressure"
  fatigue_scaler := Scaler.make 2.5 1.2 "fatigue"
  execution_scaler := Scaler.make 3.0 1.0 "execution"
  bio_scaler := Scaler.make 1.0 0.8 "bio_proxies"
  season := some year
  season_type := "default"
  last_updated := some now

/-- Witness for `scaler_set_save_load_roundtrip` on the default scaler set. -/
theorem scaler_set_save_load_roundtrip_witness :
    (create_default_scalers).leverage_scaler.std ≠ 0 ∧
      (MMIScalerSet.load (MMIScalerSet.save create_default_scalers)).leverage_scaler.mean =
        (create_default_scalers).leverage_scaler.mean ∧
      (MMIScalerSet.load (MMIScalerSet.save create_default_scalers)).leverage_scaler.std =
        (create_default_scalers).leverage_scaler.std :=
  have h1 : (create_default_scalers).leverage_scaler.std ≠ 0 := by
    norm_num [create_default_scalers, Scaler.make]
  have h2 : (create_default_scalers).pressure_scaler.std ≠ 0 := by
    norm_num [create_default_scalers, Scaler.make]
  have h3 : (create_default_scalers).fatigue_scaler.std ≠ 0 := by
    norm_num [create_default_scalers, Scaler.make]
  have h4 : (create_default_scalers).execution_scaler.std ≠ 0 := by
    norm_num [create_default_scalers, Scaler.make]
  have h5 : (create_default_scalers).bio_scaler.std ≠ 0 := by
    norm_num [create_default_scalers, Scaler.make]
  ⟨h1, (scaler_set_save_load_roundtrip create_default_scalers h1 h2 h3 h4 h5).1,
    (scaler_set_save_load_roundtrip create_default_scalers h1 h2 h3 h4 h5).2.1⟩

/-- League average attendance default (features.py, `PressureCalculator.__init__`,
and `FeatureBuilder.__init__` which leaves it at 30000.0). -/
def league_avg_attendance : ℝ := 30000.0

/-- Pressure score (features.py, `PressureCalculator.calculate`). Python
truthiness makes `if pitch.attendance:` and the `time_since_last_pitch`
guard false both for `None` and for a zero value. -/
def pressure_calculate (p : PitchEvent) : ℝ :=
  let score_diff : ℝ := |((p.score_differential : ℤ) : ℝ)|
  let closeness_pressure := Real.exp (-0.3 * score_diff)
  let inning_pressure : ℝ :=
    if p.inning ≤ 3 then 0.5
    else if p.inning ≤ 6 then 1.0
    else 1.5 + ((p.inning : ℝ) - 7) * 0.2
  let crowd_factor : ℝ :=
    match p.attendance with
    | some a => if a ≠ 0 then min 2.0 ((a : ℝ) / league_avg_attendance) else 1.0
    | none => 1.0
  let away_pressure : ℝ := if p.top_of_inning then 0.3 else 0.0
  let postseason_pressure : ℝ :=
    if p.is_postseason then 1.5 + (if p.is_elimination_game then 1.0 else 0.0)
    else 0.0
  let time_pressure_val : ℝ :=
    match p.time_since_last_pitch with
    | some t => if t ≠ 0 ∧ 30 < t then min 2.0 (t / 30.0) * 0.5 else 0.0
    | none => 0.0
  closeness_pressure * 2.0 + inning_pressure * 1.5 + crowd_factor * 0.5 +
    away_pressure + postseason_pressure + time_pressure_val

/-- Pitcher fatigue (features.py, `FatigueCalculator.calculate_pitcher_fatigue`). -/
def calculate_pitcher_fatigue (p : PitchEvent) (pitches_in_game : ℕ)
    (pitches_last_7_days : ℕ) (days_since_last_outing : ℕ)
    (is_starter : Bool) : ℝ :=
  let game_fatigue : ℝ :=
    if is_starter then
      if pitches_in_game < 75 then (pitches_in_game : ℝ) / 75.0
      else 1.0 + ((pitches_in_game : ℝ) - 75) / 30.0
    else
      if pitches_in_game < 25 then (pitches_in_game : ℝ) / 25.0
      else 1.0 + ((pitches_in_game : ℝ) - 25) / 10.0
  let workload_fatigue : ℝ := (pitches_last_7_days : ℝ) / 100.0
  let rest_fatigue : ℝ :=
    if days_since_last_outing = 0 then 2.0
    else if days_since_last_outing = 1 then 1.5
    else if days_since_last_outing = 2 then 1.0
    else max 0.0 (1.0 - ((days_since_last_outing : ℝ) - 2) * 0.2)
  let inning_fatigue : ℝ := (p.inning : ℝ) / 9.0
  game_fatigue * 2.0 + workload_fatigue * 1.5 + rest_fatigue * 1.0 +
    inning_fatigue * 0.5

/-- Batter fatigue (features.py, `FatigueCalculator.calculate_batter_fatigue`). -/
def calculate_batter_fatigue (p : PitchEvent) (pas_in_game : ℕ)
    (pas_last_7_days : ℕ) : ℝ :=
  let pa_fatigue : ℝ := (pas_in_game : ℝ) / 5.0
  let workload_fatigue : ℝ := (pas_last_7_days : ℝ) / 30.0
  let extra_inning_fatigue : ℝ :=
    if 9 < p.inning then ((p.inning : ℝ) - 9) * 0.3 else 0.0
  let late_game_fatigue : ℝ :=
    if 7 ≤ p.inning then ((p.inning : ℝ) - 6) * 0.2 else 0.0
  pa_fatigue * 1.0 + workload_fatigue * 1.0 + extra_inning_fatigue +
    late_game_fatigue

/-- Pitcher execution difficulty
(features.py, `ExecutionWindowsCalculator.calculate_pitcher_execution`). -/
def calculate_pitcher_execution (p : PitchEvent) (batter_woba : ℝ)
    (is_platoon_disadvantage : Bool) : ℝ :=
  let batter_difficulty := batter_woba / 0.320 * 1.5
  let count_difficulty : ℝ :=
    if p.count.hittersCount then 1.5
    else if p.count.pitchersCount then 0.5
    else 1.0
  let situation_difficulty : ℝ :=
    (p.base_state.runners_on_base : ℝ) * 0.5 + ((2 : ℝ) - (p.outs : ℝ)) * 0.3
  let platoon : ℝ := if is_platoon_disadvantage then 0.5 else 0.0
  let losing : ℝ := if p.score_differential < 0 then 0.3 else 0.0
  batter_difficulty + count_difficulty + situation_difficulty + platoon + losing

/-- Batter execution difficulty
(features.py, `ExecutionWindowsCalculator.calculate_batter_execution`);
the velocity and previous-velocity guards follow Python truthiness. -/
def calculate_batter_execution (p : PitchEvent)
    (previous_pitch_velocity : Option ℝ) (pitcher_stuff_plus : ℝ) : ℝ :=
  let velocity_terms : ℝ :=
    match p.velocity with
    | some v =>
      if v ≠ 0 then
        v / 92.0 * 1.0 +
          (match previous_pitch_velocity with
           | some pv => if pv ≠ 0 then min 1.0 (|v - pv| / 10.0) * 0.5 else 0.0
           | none => 0.0)
      else 0.0
    | none => 0.0
  let count_difficulty : ℝ :=
    if p.count.hittersCount then 0.5
    else if p.count.pitchersCount then 1.5
    else 1.0
  let pitcher_difficulty := pitcher_stuff_plus / 100.0 * 1.0
  let two_strike : ℝ := if p.count.strikes = 2 then 0.5 else 0.0
  let risp : ℝ :=
    if p.base_state.runner_on_second || p.base_state.runner_on_third then 0.3
    else 0.0
  velocity_terms + count_difficulty + pitcher_difficulty + two_strike + risp

/-- Bio-proxies score (features.py, `BioProxiesCalculator.calculate`). -/
def bio_calculate (p : PitchEvent) (pitches_in_game : ℕ)
    (high_mmi_moments_in_game : ℕ) (pitcher_avg_tempo : ℝ) : ℝ :=
  let tempo_signal : ℝ :=
    match p.time_since_last_pitch with
    | some t => if t ≠ 0 then min 1.0 (|t - pitcher_avg_tempo| / 5.0) * 0.8 else 0.0
    | none => 0.0
  let cumulative_stress : ℝ := min 2.0 ((high_mmi_moments_in_game : ℝ) * 0.3)
  let late_leverage : ℝ :=
    if 7 ≤ p.inning ∧ |p.score_differential| ≤ 2 ∧
        2 ≤ p.base_state.runners_on_base then 0.5
    else 0.0
  let role_stress : ℝ :=
    if 9 ≤ p.inning then
      if p.top_of_inning = false ∧ 0 < p.score_differential then 0.6
      else if p.top_of_inning = true ∧ p.score_differential < 0 then 0.6
      else 0.0
    else 0.0
  let pitch_count_stress : ℝ :=
    if 100 < pitches_in_game then ((pitches_in_game : ℝ) - 100) / 50.0 else 0.0
  tempo_signal + cumulative_stress + late_leverage + role_stress +
    pitch_count_stress

/-- The four feature values returned as a dict by the builder
(features.py, `FeatureBuilder`). -/
structure Features where
  pressure : ℝ
  fatigue : ℝ
  execution : ℝ
  bio_proxies : ℝ

/-- features.py, `FeatureBuilder.compute_pitcher_features`. -/
def compute_pitcher_features (p : PitchEvent) (pitches_in_game : ℕ)
    (pitches_last_7_days : ℕ) (days_since_last_outing : ℕ) (is_starter : Bool)
    (batter_woba : ℝ) (high_mmi_moments_in_game : ℕ) : Features where
  pressure := pressure_calculate p
  fatigue := calculate_pitcher_fatigue p pitches_in_game pitches_last_7_days
    days_since_last_outing is_starter
  execution := calculate_pitcher_execution p batter_woba false
  bio_proxies := bio_calculate p pitches_in_game high_mmi_moments_in_game 20.0

/-- features.py, `FeatureBuilder.compute_batter_features`; note the source
passes `pas_in_game` as the bio calculator pitch count. -/
def compute_batter_features (p : PitchEvent) (pas_in_game : ℕ)
    (pas_last_7_days : ℕ) (previous_pitch_velocity : Option ℝ)
    (high_mmi_moments_in_game : ℕ) : Features where
  pressure := pressure_calculate p
  fatigue := calculate_batter_fatigue p pas_in_game pas_last_7_days
  execution := calculate_batter_execution p previous_pitch_velocity 100.0
  bio_proxies := bio_calculate p pas_in_game high_mmi_moments_in_game 20.0

/-- MMI component breakdown (models.py, `MMIComponents`). -/
structure MMIComponents where
  leverage_index : ℝ
  pressure_score : ℝ
  fatigue_score : ℝ
  execution_windows : ℝ
  bio_proxies : ℝ
  z_leverage : ℝ
  z_pressure : ℝ
  z_fatigue : ℝ
  z_execution : ℝ
  z_bio : ℝ
  weight_leverage : ℝ := 0.35
  weight_pressure : ℝ := 0.20
  weight_fatigue : ℝ := 0.20
  weight_execution : ℝ := 0.15
  weight_bio : ℝ := 0.10

/-- models.py, `MMIComponents.weighted_sum`. -/
def MMIComponents.weighted_sum (c : MMIComponents) : ℝ :=
  c.weight_leverage * c.z_leverage + c.weight_pressure * c.z_pressure +
  c.weight_fatigue * c.z_fatigue + c.weight_execution * c.z_execution +
  c.weight_bio * c.z_bio

/-- Sum of the five weights carried by an `MMIComponents` value (used to
state the weight-normalization invariant of spec section 3). -/
def MMIComponents.weight_total (c : MMIComponents) : ℝ :=
  c.weight_leverage + c.weight_pressure + c.weight_fatigue +
  c.weight_execution + c.weight_bio

/-- The `meta` dict attached to an `MMIResult`: per-pitch results carry
the at-bat index and pitch number, plate-appearance results the
aggregation name and pitch count (mmi_core.py). -/
inductive ResultMeta where
  | pitchMeta (at_bat_index : ℕ) (pitch_number : ℕ)
  | paMeta (aggregation : String) (pitch_count : ℕ)
deriving DecidableEq

/-- Complete MMI result (models.py, `MMIResult`). The `timestamp` field
defaults to `datetime.utcnow()` in the source; it is modelled as the
wall-clock reading at construction, supplied as an input. -/
structure MMIResult where
  pitch_id : Option String
  game_id : String
  batter_id : String
  pitcher_id : String
  inning : ℕ
  mmi : ℝ
  components : MMIComponents
  timestamp : ℝ
  role : String
  meta : ResultMeta

/-- The calculator component weights dict (mmi_core.py,
`MMICalculator.__init__`, `self.weights`). -/
structure Weights where
  leverage : ℝ := 0.35
  pressure : ℝ := 0.20
  fatigue : ℝ := 0.20
  execution : ℝ := 0.15
  bio : ℝ := 0.10

/-- Partial caller-supplied weights, merged into the defaults by
`self.weights.update(custom_weights)`; each entry is optional because a
Python dict may supply any subset of the five keys. -/
structure WeightOverride where
  leverage : Option ℝ := none
  pressure : Option ℝ := none
  fatigue : Option ℝ := none
  execution : Option ℝ := none
  bio : Option ℝ := none

/-- Dict update with the caller-supplied entries. -/
def Weights.update (w : Weights) (c : WeightOverride) : Weights where
  leverage := c.leverage.getD w.leverage
  pressure := c.pressure.getD w.pressure
  fatigue := c.fatigue.getD w.fatigue
  execution := c.execution.getD w.execution
  bio := c.bio.getD w.bio

/-- Sum of the five weights (`sum(self.weights.values())`). -/
def Weights.total (w : Weights) : ℝ :=
  w.leverage + w.pressure + w.fatigue + w.execution + w.bio

/-- The weights dict after `self.weights.update(custom_weights)`
(mmi_core.py, `MMICalculator.__init__`): defaults updated with the
caller-supplied entries, before validation. A zero total would raise
`ZeroDivisionError` in Python during renormalization; Lean total division
returns 0 there, so theorems about the renormalized branch carry a
nonzero-total hypothesis. -/
def raw_custom_weights (custom_weights : Option WeightOverride) : Weights :=
  match custom_weights with
  | none => {}
  | some c => Weights.update {} c

/-- Weight validation (the remainder of `MMICalculator.__init__`):
renormalization only when the total deviates from 1.0 by more than 0.01. -/
def init_weights (custom_weights : Option WeightOverride) : Weights :=
  let w : Weights := raw_custom_weights custom_weights
  if 0.01 < |w.total - 1.0| then
    { leverage := w.leverage / w.total
      pressure := w.pressure / w.total
      fatigue := w.fatigue / w.total
      execution := w.execution / w.total
      bio := w.bio / w.total }
  else w

/-- Calculator state: scaler set and weights (mmi_core.py,
`MMICalculator`). The leverage memo cache is threaded explicitly through
every computation instead of living inside the calculator object. -/
structure MMICalculator where
  scaler_set : MMIScalerSet
  weights : Weights

/-- mmi_core.py, `MMICalculator.__init__`. -/
def MMICalculator.make (scaler_set : Option MMIScalerSet)
    (custom_weights : Option WeightOverride) : MMICalculator where
  scaler_set := scaler_set.getD create_default_scalers
  weights := init_weights custom_weights

/-- The per-call workload context dict (mmi_core.py,
`MMICalculator.compute_pitch_mmi`, step 2); every key is optional and the
compute step substitutes the documented default when a key is absent. -/
structure MMIContext where
  pitches_in_game : Option ℕ := none
  pitches_last_7_days : Option ℕ := none
  days_since_last_outing : Option ℕ := none
  is_starter : Option Bool := none
  batter_woba : Option ℝ := none
  pas_in_game : Option ℕ := none
  pas_last_7_days : Option ℕ := none
  high_mmi_moments_in_game : Option ℕ := none
  previous_pitch_velocity : Option ℝ := none

/-- Steps 2-7 of mmi_core.py, `MMICalculator.compute_pitch_mmi`: context
defaults, role-dependent features, z-scores, components and the final
weighted sum, as a function of the memoized leverage value. -/
def pitch_mmi_result (mc : MMICalculator) (p : PitchEvent) (role : String)
    (context : Option MMIContext) (now : ℝ) (leverage : ℝ) : MMIResult :=
  let pitches_in_game := (context.bind (fun c => c.pitches_in_game)).getD 50
    let pitches_last_7_days :=
      (context.bind (fun c => c.pitches_last_7_days)).getD 0
    let days_since_last_outing :=
      (context.bind (fun c => c.days_since_last_outing)).getD 3
    let is_starter := (context.bind (fun c => c.is_starter)).getD true
    let batter_woba := (context.bind (fun c => c.batter_woba)).getD 0.320
    let pas_in_game := (context.bind (fun c => c.pas_in_game)).getD 3
    let pas_last_7_days := (context.bind (fun c => c.pas_last_7_days)).getD 25
    let high_mmi_moments :=
      (context.bind (fun c => c.high_mmi_moments_in_game)).getD 0
    let features :=
      if role = "pitcher" then
        compute_pitcher_features p pitches_in_game pitches_last_7_days
          days_since_last_outing is_starter batter_woba high_mmi_moments
      else
        compute_batter_features p pas_in_game pas_last_7_days
          (context.bind (fun c => c.previous_pitch_velocity)) high_mmi_moments
    let z := mc.scaler_set.transform_all leverage features.pressure
      features.fatigue features.execution features.bio_proxies
    let components : MMIComponents :=
      { leverage_index := leverage
        pressure_score := features.pressure
        fatigue_score := features.fatigue
        execution_windows := features.execution
        bio_proxies := features.bio_proxies
        z_leverage := z.z_leverage
        z_pressure := z.z_pressure
        z_fatigue := z.z_fatigue
        z_execution := z.z_execution
        z_bio := z.z_bio
        weight_leverage := mc.weights.leverage
        weight_pressure := mc.weights.pressure
        weight_fatigue := mc.weights.fatigue
        weight_execution := mc.weights.execution
        weight_bio := mc.weights.bio }
    let mmi_score := components.weighted_sum
    { pitch_id := p.pitch_id
      game_id := p.game_id
      batter_id := p.batter_id
      pitcher_id := p.pitcher_id
      inning := p.inning
      mmi := mmi_score
      components := components
      timestamp := now
      role := role
      meta := .pitchMeta p.at_bat_index p.pitch_number }

/-- MMI for a single pitch (mmi_core.py, `MMICalculator.compute_pitch_mmi`):
role validation, memoized leverage, then the result construction of
`pitch_mmi_result` applied to the leverage value. `now` is the wall-clock
reading stamped into the result by the `MMIResult` constructor default
`datetime.utcnow()`. -/
def compute_pitch_mmi (mc : MMICalculator) (cache : LeverageCache)
    (p : PitchEvent) (role : String) (context : Option MMIContext)
    (now : ℝ) : Except String (MMIResult × LeverageCache) :=
  if ¬(role = "pitcher" ∨ role = "batter") then
    .error "role must be 'pitcher' or 'batter'"
  else
    let lev := calculate_leverage_for_pitch cache p
    .ok (pitch_mmi_result mc p role context now lev.1, lev.2)

/-- The per-pitch loop of `compute_pa_mmi` (mmi_core.py, step "Compute MMI
for each pitch"): `contexts[i] if contexts and i < len(contexts) else None`
is the optional list indexing. -/
def run_pa_pitches (mc : MMICalculator) (role : String)
    (contexts : Option (List MMIContext)) (now : ℝ) :
    List PitchEvent → ℕ → LeverageCache →
      Except String (List MMIResult × LeverageCache)
  | [], _, cache => .ok ([], cache)
  | p :: rest, i, cache =>
    match compute_pitch_mmi mc cache p role
        (contexts.bind (fun l => l.get? i)) now with
    | .error e => .error e
    | .ok rc =>
      match run_pa_pitches mc role contexts now rest (i + 1) rc.2 with
      | .error e => .error e
      | .ok rsc => .ok (rc.1 :: rsc.1, rsc.2)

/-- The "mean" aggregate result (mmi_core.py, `compute_pa_mmi`,
`aggregation == "mean"` branch). -/
def pa_mean_result (w : Weights) (role : String) (results : List MMIResult)
    (first_pitch : PitchEvent) (pitch_count : ℕ) (now : ℝ) : MMIResult :=
  let n : ℝ := results.length
  { pitch_id := none
    game_id := first_pitch.game_id
    batter_id := first_pitch.batter_id
    pitcher_id := first_pitch.pitcher_id
    inning := first_pitch.inning
    mmi := (results.map (fun r => r.mmi)).sum / n
    components :=
      { leverage_index := (results.map (fun r => r.components.leverage_index)).sum / n
        pressure_score := (results.map (fun r => r.components.pressure_score)).sum / n
        fatigue_score := (results.map (fun r => r.components.fatigue_score)).sum / n
        execution_windows := (results.map (fun r => r.components.execution_windows)).sum / n
        bio_proxies := (results.map (fun r => r.components.bio_proxies)).sum / n
        z_leverage := (results.map (fun r => r.components.z_leverage)).sum / n
        z_pressure := (results.map (fun r => r.components.z_pressure)).sum / n
        z_fatigue := (results.map (fun r => r.components.z_fatigue)).sum / n
        z_execution := (results.map (fun r => r.components.z_execution)).sum / n
        z_bio := (results.map (fun r => r.components.z_bio)).sum / n
        weight_leverage := w.leverage
        weight_pressure := w.pressure
        weight_fatigue := w.fatigue
        weight_execution := w.execution
        weight_bio := w.bio }
    timestamp := now
    role := role
    meta := .paMeta "mean" pitch_count }

/-- The "weighted" aggregate result (mmi_core.py, `compute_pa_mmi`,
`aggregation == "weighted"` branch, nonzero total leverage). -/
def pa_weighted_result (w : Weights) (role : String)
    (results : List MMIResult) (first_pitch : PitchEvent)
    (total_leverage : ℝ) (pitch_count : ℕ) (now : ℝ) : MMIResult :=
  { pitch_id := none
    game_id := first_pitch.game_id
    batter_id := first_pitch.batter_id
    pitcher_id := first_pitch.pitcher_id
    inning := first_pitch.inning
    mmi := (results.map (fun r =>
      r.mmi * r.components.leverage_index / total_leverage)).sum
    components :=
      { leverage_index := (results.map (fun r =>
          r.components.leverage_index * r.components.leverage_index)).sum / total_leverage
        pressure_score := (results.map (fun r =>
          r.components.pressure_score * r.components.leverage_index)).sum / total_leverage
        fatigue_score := (results.map (fun r =>
          r.components.fatigue_score * r.components.leverage_index)).sum / total_leverage
        execution_windows := (results.map (fun r =>
          r.components.execution_windows * r.components.leverage_index)).sum / total_leverage
        bio_proxies := (results.map (fun r =>
          r.components.bio_proxies * r.components.leverage_index)).sum / total_leverage
        z_leverage := (results.map (fun r =>
          r.components.z_leverage * r.components.leverage_index)).sum / total_leverage
        z_pressure := (results.map (fun r =>
          r.components.z_pressure * r.components.leverage_index)).sum / total_leverage
        z_fatigue := (results.map (fun r =>
          r.components.z_fatigue * r.components.leverage_index)).sum / total_leverage
        z_execution := (results.map (fun r =>
          r.components.z_execution * r.components.leverage_index)).sum / total_leverage
        z_bio := (results.map (fun r =>
          r.components.z_bio * r.components.leverage_index)).sum / total_leverage
        weight_leverage := w.leverage
        weight_pressure := w.pressure
        weight_fatigue := w.fatigue
        weight_execution := w.execution
        weight_bio := w.bio }
    timestamp := now
    role := role
    meta := .paMeta "weighted" pitch_count }

/-- MMI for a plate appearance (mmi_core.py, `MMICalculator.compute_pa_mmi`).
The zero-total-leverage "weighted" branch re-enters the function with
aggregation "mean", exactly as the source recursion does. -/
def compute_pa_mmi (mc : MMICalculator) (cache : LeverageCache)
    (pitches : List PitchEvent) (role : String) (aggregation : String)
    (contexts : Option (List MMIContext)) (now : ℝ) :
    Except String (MMIResult × LeverageCache) :=
  match pitches with
  | [] => .error "Cannot compute PA MMI with no pitches"
  | first_pitch :: _ =>
    match run_pa_pitches mc role contexts now pitches 0 cache with
    | .error e => .error e
    | .ok (mmi_results, cache₁) =>
      if aggregation = "max" then
        match mmi_results with
        | [] => .error "Cannot compute PA MMI with no pitches"
        | r₀ :: rest =>
          .ok (rest.foldl (fun acc x => if acc.mmi < x.mmi then x else acc) r₀,
            cache₁)
      else if aggregation = "mean" then
        .ok (pa_mean_result mc.weights role mmi_results first_pitch
          pitches.length now, cache₁)
      else if hagg : aggregation = "weighted" then
        let total_leverage :=
          (mmi_results.map (fun r => r.components.leverage_index)).sum
        if total_leverage = 0 then
          compute_pa_mmi mc cache₁ pitches role "mean" contexts now
        else
          .ok (pa_weighted_result mc.weights role mmi_results first_pitch
            total_leverage pitches.length now, cache₁)
      else .error ("Unknown aggregation: " ++ aggregation)
termination_by (if aggregation = "weighted" then 1 else 0)
decreasing_by simp_all

lemma cacheLookup_append (c : LeverageCache) (k₀ : String) (v : ℝ) (k : String) :
    cacheLookup (c ++ [(k₀, v)]) k =
      match cacheLookup c k with
      | some w => some w
      | none => if k₀ = k then some v else none := by
  induction c with
  | nil => simp [cacheLookup]
  | cons hd tl ih =>
    obtain ⟨k₁, w₁⟩ := hd
    by_cases h : k₁ = k <;> simp [cacheLookup, h, ih]

lemma calculate_leverage_for_pitch_idem (cache : LeverageCache) (p : PitchEvent) :
    calculate_leverage_for_pitch (calculate_leverage_for_pitch cache p).2 p =
      ((calculate_leverage_for_pitch cache p).1,
        (calculate_leverage_for_pitch cache p).2) := by
  unfold calculate_leverage_for_pitch
  cases h : cacheLookup cache (make_cache_key p) with
  | some v => simp [h]
  | none => simp [h, cacheInsert, cacheLookup_append]

lemma compute_pitch_mmi_ok_form (mc : MMICalculator) (cache : LeverageCache)
    (p : PitchEvent) (role : String) (context : Option MMIContext) (now : ℝ)
    (hrole : role = "pitcher" ∨ role = "batter") :
    compute_pitch_mmi mc cache p role context now =
      .ok (pitch_mmi_result mc p role context now
            (calculate_leverage_for_pitch cache p).1,
          (calculate_leverage_for_pitch cache p).2) := by
  unfold compute_pitch_mmi
  rw [if_neg (not_not_intro hrole)]

lemma pitch_mmi_result_timestamp (mc : MMICalculator) (p : PitchEvent)
    (role : String) (context : Option MMIContext) (now leverage : ℝ) :
    (pitch_mmi_result mc p role context now leverage).timestamp = now := rfl

lemma pitch_mmi_result_weight_total (mc : MMICalculator) (p : PitchEvent)
    (role : String) (context : Option MMIContext) (now leverage : ℝ) :
    (pitch_mmi_result mc p role context now leverage).components.weight_total =
      mc.weights.total := rfl

lemma pitch_mmi_result_leverage_index (mc : MMICalculator) (p : PitchEvent)
    (role : String) (context : Option MMIContext) (now leverage : ℝ) :
    (pitch_mmi_result mc p role context now leverage).components.leverage_index =
      leverage := rfl

/-- C10: plate-appearance aggregation over the empty pitch list raises the
validation `ValueError` for every role and every aggregation mode, before
any computation; it never produces an `MMIResult`. -/
theorem compute_pa_mmi_empty_list (mc : MMICalculator) (cache : LeverageCache)
    (role aggregation : String) (contexts : Option (List MMIContext)) (now : ℝ) :
    compute_pa_mmi mc cache [] role aggregation contexts now =
      .error "Cannot compute PA MMI with no pitches" := by
  rw [compute_pa_mmi]

/-- C4 counterexample: two calls of `compute_pitch_mmi` with identical
pitch, role, context and calculator state but wall-clock readings 0 and 1
return different `MMIResult` values — the `timestamp` field records the
clock, so the results are not bit-identical. -/
theorem compute_pitch_mmi_not_bit_identical :
    compute_pitch_mmi (MMICalculator.make none none) [] samplePitch "pitcher"
        none 0 ≠
      compute_pitch_mmi (MMICalculator.make none none) [] samplePitch "pitcher"
        none 1 := by
  intro h
  rw [compute_pitch_mmi_ok_form _ _ _ _ _ _ (Or.inl rfl),
    compute_pitch_mmi_ok_form _ _ _ _ _ _ (Or.inl rfl)] at h
  simp only [Except.ok.injEq, Prod.mk.injEq] at h
  have ht := congrArg MMIResult.timestamp h.1
  rw [pitch_mmi_result_timestamp, pitch_mmi_result_timestamp] at ht
  norm_num at ht

/-- C4 (amended): `compute_pitch_mmi` is deterministic in every field
except `timestamp`: a second call with the same pitch, role, context and
calculator (run on the cache the first call left behind) returns the first
result with only its timestamp replaced, and leaves the cache unchanged. -/
theorem compute_pitch_mmi_deterministic_mod_timestamp (mc : MMICalculator)
    (cache : LeverageCache) (p : PitchEvent) (role : String)
    (context : Option MMIContext) (t₁ t₂ : ℝ) (r₁ r₂ : MMIResult)
    (c₁ c₂ : LeverageCache)
    (h₁ : compute_pitch_mmi mc cache p role context t₁ = .ok (r₁, c₁))
    (h₂ : compute_pitch_mmi mc c₁ p role context t₂ = .ok (r₂, c₂)) :
    r₂ = { r₁ with timestamp := t₂ } ∧ c₂ = c₁ := by
  by_cases hrole : ¬(role = "pitcher" ∨ role = "batter")
  · rw [compute_pitch_mmi, if_pos hrole] at h₁
    exact absurd h₁ (by simp)
  · rw [compute_pitch_mmi_ok_form _ _ _ _ _ _ (not_not.mp hrole)] at h₁ h₂
    simp only [Except.ok.injEq, Prod.mk.injEq] at h₁ h₂
    obtain ⟨hr₁, hc₁⟩ := h₁
    subst hc₁
    rw [calculate_leverage_for_pitch_idem] at h₂
    obtain ⟨hr₂, hc₂⟩ := h₂
    subst hr₁
    subst hr₂
    subst hc₂
    refine ⟨?_, rfl⟩
    simp [pitch_mmi_result]

/-- Witness for `compute_pitch_mmi_deterministic_mod_timestamp`: two
successive calls on `samplePitch` with clock readings 0 and 1. -/
theorem compute_pitch_mmi_deterministic_mod_timestamp_witness :
    ∃ (r₁ r₂ : MMIResult) (c₁ c₂ : LeverageCache),
      compute_pitch_mmi (MMICalculator.make none none) [] samplePitch
          "pitcher" none 0 = .ok (r₁, c₁) ∧
      compute_pitch_mmi (MMICalculator.make none none) c₁ samplePitch
          "pitcher" none 1 = .ok (r₂, c₂) ∧
      r₂ = { r₁ with timestamp := 1 } ∧ c₂ = c₁ := by
  refine ⟨_, _, _, _,
    compute_pitch_mmi_ok_form _ _ _ _ _ _ (Or.inl rfl),
    compute_pitch_mmi_ok_form _ _ _ _ _ _ (Or.inl rfl), ?_⟩
  exact compute_pitch_mmi_deterministic_mod_timestamp _ _ _ _ _ _ _ _ _ _ _
    (compute_pitch_mmi_ok_form _ _ _ _ _ _ (Or.inl rfl))
    (compute_pitch_mmi_ok_form _ _ _ _ _ _ (Or.inl rfl))

lemma init_weights_near_one (custom : Option WeightOverride)
    (hnz : (raw_custom_weights custom).total ≠ 0) :
    |(init_weights custom).total - 1.0| ≤ 0.01 := by
  unfold init_weights
  by_cases h : 0.01 < |(raw_custom_weights custom).total - 1.0|
  · rw [if_pos h]
    have : (Weights.total
        { leverage := (raw_custom_weights custom).leverage / (raw_custom_weights custom).total
          pressure := (raw_custom_weights custom).pressure / (raw_custom_weights custom).total
          fatigue := (raw_custom_weights custom).fatigue / (raw_custom_weights custom).total
          execution := (raw_custom_weights custom).execution / (raw_custom_weights custom).total
          bio := (raw_custom_weights custom).bio / (raw_custom_weights custom).total }) = 1 := by
      simp only [Weights.total]
      rw [div_add_div_same, div_add_div_same, div_add_div_same, div_add_div_same]
      exact div_self hnz
    rw [this]
    norm_num
  · rw [if_neg h]
    push_neg at h
    exact h

lemma init_weights_total_eight (custom : Option WeightOverride)
    (h08 : (raw_custom_weights custom).total = 0.8) :
    (init_weights custom).leverage = (raw_custom_weights custom).leverage / 0.8 ∧
    (init_weights custom).pressure = (raw_custom_weights custom).pressure / 0.8 ∧
    (init_weights custom).fatigue = (raw_custom_weights custom).fatigue / 0.8 ∧
    (init_weights custom).execution = (raw_custom_weights custom).execution / 0.8 ∧
    (init_weights custom).bio = (raw_custom_weights custom).bio / 0.8 ∧
    (init_weights custom).total = 1 := by
  have hcond : 0.01 < |(raw_custom_weights custom).total - 1.0| := by
    rw [h08, show |(0.8 : ℝ) - 1.0| = 0.2 from by norm_num]
    norm_num
  have hsum : (raw_custom_weights custom).leverage +
      (raw_custom_weights custom).pressure +
      (raw_custom_weights custom).fatigue +
      (raw_custom_weights custom).execution +
      (raw_custom_weights custom).bio = 0.8 := h08
  unfold init_weights
  rw [if_pos hcond]
  refine ⟨by rw [h08], by rw [h08], by rw [h08], by rw [h08], by rw [h08], ?_⟩
  simp only [Weights.total]
  rw [div_add_div_same, div_add_div_same, div_add_div_same, div_add_div_same,
    hsum]
  norm_num

/-- C5 counterexample: a caller-supplied leverage weight of 0.355 makes the
five weights sum to 1.005; the deviation 0.005 is within the code's 0.01
tolerance, so no renormalization happens and the `MMIComponents` built by
`compute_pitch_mmi` carries weights summing to 1.005 — not 1.0 within
1e-9 as the claim states. -/
theorem mmi_components_weight_tolerance_counterexample :
    (compute_pitch_mmi
        (MMICalculator.make none (some { leverage := some 0.355 }))
        [] samplePitch "pitcher" none 0).map
      (fun rc => rc.1.components.weight_total) = .ok 1.005 ∧
    ¬(|(1.005 : ℝ) - 1.0| ≤ 1e-9) := by
  have hraw : raw_custom_weights (some { leverage := some 0.355 }) =
      { leverage := 0.355, pressure := 0.20, fatigue := 0.20,
        execution := 0.15, bio := 0.10 } := rfl
  have hcnd : ¬((0.01 : ℝ) < |(1.005 : ℝ) - 1.0|) := by
    rw [show |(1.005 : ℝ) - 1.0| = 0.005 from by norm_num]
    norm_num
  have htot : Weights.total ⟨0.355, 0.20, 0.20, 0.15, 0.10⟩ = 1.005 := by
    norm_num [Weights.total]
  constructor
  · rw [compute_pitch_mmi_ok_form _ _ _ _ _ _ (Or.inl rfl)]
    simp only [Except.map, pitch_mmi_result_weight_total, Except.ok.injEq]
    show (init_weights (some { leverage := some 0.355 })).total = 1.005
    unfold init_weights
    rw [hraw]
    dsimp only
    rw [htot, if_neg hcnd]
    exact htot
  · rw [show |(1.005 : ℝ) - 1.0| = 0.005 from by norm_num]
    norm_num

/-- C5 (amended): every `MMIComponents` built by `compute_pitch_mmi`
carries weights summing to 1.0 within 0.01 (not 1e-9): renormalization
happens in the calculator constructor, and only when the supplied set
deviates from 1.0 by more than 0.01. A caller-supplied set with total 0.8
is indeed renormalized to sum exactly 1.0, each weight scaled by the same
factor 1/0.8, preserving all relative proportions. -/
theorem mmi_components_weights_renormalized (custom : Option WeightOverride)
    (cache : LeverageCache) (p : PitchEvent) (role : String)
    (context : Option MMIContext) (now : ℝ)
    (hrole : role = "pitcher" ∨ role = "batter")
    (hnz : (raw_custom_weights custom).total ≠ 0) :
    ∃ r cache₁,
      compute_pitch_mmi (MMICalculator.make none custom) cache p role context
          now = .ok (r, cache₁) ∧
      |r.components.weight_total - 1.0| ≤ 0.01 ∧
      ((raw_custom_weights custom).total = 0.8 →
        r.components.weight_leverage =
            (raw_custom_weights custom).leverage / 0.8 ∧
          r.components.weight_pressure =
            (raw_custom_weights custom).pressure / 0.8 ∧
          r.components.weight_fatigue =
            (raw_custom_weights custom).fatigue / 0.8 ∧
          r.components.weight_execution =
            (raw_custom_weights custom).execution / 0.8 ∧
          r.components.weight_bio = (raw_custom_weights custom).bio / 0.8 ∧
          r.components.weight_total = 1) := by
  refine ⟨_, _, compute_pitch_mmi_ok_form _ _ _ _ _ _ hrole, ?_, ?_⟩
  · rw [pitch_mmi_result_weight_total]
    exact init_weights_near_one custom hnz
  · intro h08
    obtain ⟨e1, e2, e3, e4, e5, e6⟩ := init_weights_total_eight custom h08
    refine ⟨?_, ?_, ?_, ?_, ?_, ?_⟩
    · exact e1
    · exact e2
    · exact e3
    · exact e4
    · exact e5
    · rw [pitch_mmi_result_weight_total]
      exact e6

/-- Witness for `mmi_components_weights_renormalized` with a full custom
weight set of total 0.8 (0.15 + 0.2 + 0.2 + 0.15 + 0.1). -/
theorem mmi_components_weights_renormalized_witness :
    ("pitcher" = "pitcher" ∨ "pitcher" = "batter") ∧
      (raw_custom_weights (some ⟨some 0.15, some 0.2, some 0.2, some 0.15,
        some 0.1⟩)).total ≠ 0 ∧
      ∃ r cache₁,
        compute_pitch_mmi
            (MMICalculator.make none (some ⟨some 0.15, some 0.2, some 0.2,
              some 0.15, some 0.1⟩)) [] samplePitch "pitcher" none 0 =
          .ok (r, cache₁) ∧
        |r.components.weight_total - 1.0| ≤ 0.01 ∧
        ((raw_custom_weights (some ⟨some 0.15, some 0.2, some 0.2, some 0.15,
            some 0.1⟩)).total = 0.8 →
          r.components.weight_leverage =
              (raw_custom_weights (some ⟨some 0.15, some 0.2, some 0.2,
                some 0.15, some 0.1⟩)).leverage / 0.8 ∧
            r.components.weight_pressure =
              (raw_custom_weights (some ⟨some 0.15, some 0.2, some 0.2,
                some 0.15, some 0.1⟩)).pressure / 0.8 ∧
            r.components.weight_fatigue =
              (raw_custom_weights (some ⟨some 0.15, some 0.2, some 0.2,
                some 0.15, some 0.1⟩)).fatigue / 0.8 ∧
            r.components.weight_execution =
              (raw_custom_weights (some ⟨some 0.15, some 0.2, some 0.2,
                some 0.15, some 0.1⟩)).execution / 0.8 ∧
            r.components.weight_bio =
              (raw_custom_weights (some ⟨some 0.15, some 0.2, some 0.2,
                some 0.15, some 0.1⟩)).bio / 0.8 ∧
            r.components.weight_total = 1) :=
  ⟨Or.inl rfl,
    by norm_num [raw_custom_weights, Weights.update, Weights.total],
    mmi_components_weights_renormalized _ [] samplePitch "pitcher" none 0
      (Or.inl rfl)
      (by norm_num [raw_custom_weights, Weights.update, Weights.total])⟩

/-- Arithmetic mean (Python `statistics.mean`). -/
def stat_mean (l : List ℝ) : ℝ := l.sum / l.length

/-- Sample standard deviation with divisor N-1 (Python `statistics.stdev`,
the function aggregate.py actually calls). -/
def stdev_sample (l : List ℝ) : ℝ :=
  let m := l.sum / l.length
  Real.sqrt ((l.map (fun x => (x - m) ^ 2)).sum / ((l.length : ℝ) - 1))

/-- Population standard deviation with divisor N, as the words of spec
section 4.7 prescribe ("population standard deviation"); written from the
spec for comparison with the code's summary. -/
def pstdev (l : List ℝ) : ℝ :=
  let m := l.sum / l.length
  Real.sqrt ((l.map (fun x => (x - m) ^ 2)).sum / (l.length : ℝ))

/-- Median of an already sorted list (Python `statistics.median`; the
caller in aggregate.py passes the sorted mmi values, and median's own
re-sort of a sorted list is the identity). The empty case raises in
Python and is unreachable from `summarize_mmi_by_player`. -/
def median_sorted (s : List ℝ) : ℝ :=
  let n := s.length
  if n % 2 = 1 then s.getD (n / 2) 0
  else (s.getD (n / 2 - 1) 0 + s.getD (n / 2) 0) / 2

/-- Linear-interpolation percentile over the sorted values
(aggregate.py, the inner `percentile` function of
`summarize_mmi_by_player`); `int(k)` truncates, which for the
nonnegative `k` arising here is the floor. -/
def percentile_interp (sorted_vals : List ℝ) (p : ℝ) : ℝ :=
  let n := sorted_vals.length
  if n = 0 then 0.0
  else
    let k : ℝ := ((n : ℝ) - 1) * p / 100
    let f : ℕ := ⌊k⌋₊
    let c : ℕ := if k < (n : ℝ) - 1 then f + 1 else f
    sorted_vals.getD f 0 +
      (sorted_vals.getD c 0 - sorted_vals.getD f 0) * (k - (f : ℝ))

/-- Aggregated player summary (models.py, `PlayerMMISummary`). -/
structure PlayerMMISummary where
  player_id : String
  player_name : Option String := none
  role : String
  season : ℤ
  season_type : String := "regular"
  total_pitches : ℕ
  total_pas : Option ℕ := none
  total_games : ℕ
  mean_mmi : ℝ
  median_mmi : ℝ
  std_mmi : ℝ
  p10_mmi : ℝ
  p25_mmi : ℝ
  p75_mmi : ℝ
  p90_mmi : ℝ
  p95_mmi : ℝ
  p99_mmi : ℝ
  high_mmi_count : ℕ
  extreme_mmi_count : ℕ
  avg_leverage : ℝ
  avg_pressure : ℝ
  avg_fatigue : ℝ
  avg_execution : ℝ
  avg_bio : ℝ

/-- The player a result is booked under for a given role
(aggregate.py, `summarize_mmi_by_player`, group-by step). -/
def playerOf (role : String) (r : MMIResult) : String :=
  if role = "pitcher" then r.pitcher_id else r.batter_id

/-- Insertion-ordered key set of a Python `defaultdict` built by appending. -/
def addKey (ks : List String) (k : String) : List String :=
  if k ∈ ks then ks else ks ++ [k]

/-- The dict keys of the group-by, in first-occurrence order. -/
def groupKeys (results : List MMIResult) (role : String) : List String :=
  results.foldl
    (fun ks r => if r.role ≠ role then ks else addKey ks (playerOf role r)) []

/-- The list stored under one key of the group-by dict: results for this
role and player, in input order. -/
def groupOf (results : List MMIResult) (role : String) (pid : String) :
    List MMIResult :=
  results.filter (fun r => decide (r.role = role ∧ playerOf role r = pid))

/-- Player summaries (aggregate.py, `summarize_mmi_by_player`). The
grouping dict is represented by its insertion-ordered keys plus the
per-key filtered sublists; `current_year` stands for
`datetime.now().year`, read when `season` is `None`. -/
def summarize_mmi_by_player (results : List MMIResult) (role : String)
    (season : Option ℤ) (season_type : String) (current_year : ℤ) :
    List PlayerMMISummary :=
  (groupKeys results role).filterMap (fun pid =>
    let rs := groupOf results role pid
    if rs.isEmpty then none
    else
      let sorted_vals := List.insertionSort (· ≤ ·) (rs.map (fun r => r.mmi))
      let n := sorted_vals.length
      some
        { player_id := pid
          role := role
          season := season.getD current_year
          season_type := season_type
          total_pitches := rs.length
          total_games := ((rs.map (fun r => r.game_id)).dedup).length
          mean_mmi := stat_mean sorted_vals
          median_mmi := median_sorted sorted_vals
          std_mmi := if 1 < n then stdev_sample sorted_vals else 0.0
          p10_mmi := percentile_interp sorted_vals 10
          p25_mmi := percentile_interp sorted_vals 25
          p75_mmi := percentile_interp sorted_vals 75
          p90_mmi := percentile_interp sorted_vals 90
          p95_mmi := percentile_interp sorted_vals 95
          p99_mmi := percentile_interp sorted_vals 99
          high_mmi_count := sorted_vals.countP (fun x => decide (2.0 < x))
          extreme_mmi_count := sorted_vals.countP (fun x => decide (3.0 < x))
          avg_leverage := stat_mean (rs.map (fun r => r.components.leverage_index))
          avg_pressure := stat_mean (rs.map (fun r => r.components.pressure_score))
          avg_fatigue := stat_mean (rs.map (fun r => r.components.fatigue_score))
          avg_execution := stat_mean (rs.map (fun r => r.components.execution_windows))
          avg_bio := stat_mean (rs.map (fun r => r.components.bio_proxies)) })

lemma stdev_sample_perm {l₁ l₂ : List ℝ} (h : l₁.Perm l₂) :
    stdev_sample l₁ = stdev_sample l₂ := by
  unfold stdev_sample
  dsimp only
  rw [h.sum_eq, h.length_eq, ((h.map _).sum_eq :
    (l₁.map (fun x => (x - l₂.sum / l₂.length) ^ 2)).sum = _)]

/-- C9 (amended): the std field of every player summary is the sample
standard deviation (divisor N-1) of the group's mmi values when the group
has at least two results, and 0.0 for a singleton group — not the
population standard deviation. -/
theorem summarize_std_is_sample_stdev (results : List MMIResult)
    (role : String) (season : Option ℤ) (season_type : String)
    (current_year : ℤ) :
    (summarize_mmi_by_player results role season season_type
        current_year).map (fun s => s.std_mmi) =
      (groupKeys results role).filterMap (fun pid =>
        let rs := groupOf results role pid
        if rs.isEmpty then none
        else some (if 1 < rs.length then
          stdev_sample (rs.map (fun r => r.mmi)) else 0.0)) := by
  unfold summarize_mmi_by_player
  rw [List.map_filterMap]
  apply List.filterMap_congr
  intro pid _
  by_cases h : (groupOf results role pid).isEmpty
  · simp [h]
  · simp only [Bool.not_eq_true] at h
    have hperm := List.perm_insertionSort (α := ℝ) (· ≤ ·)
      ((groupOf results role pid).map (fun r => r.mmi))
    have hlen : (List.insertionSort (· ≤ ·)
        ((groupOf results role pid).map (fun r => r.mmi))).length =
        (groupOf results role pid).length := by
      rw [hperm.length_eq, List.length_map]
    simp [h, hlen, stdev_sample_perm hperm]

/-- Component values used by the aggregation test inputs. -/
def sampleComponents (v : ℝ) : MMIComponents where
  leverage_index := v
  pressure_score := 0
  fatigue_score := 0
  execution_windows := 0
  bio_proxies := 0
  z_leverage := 0
  z_pressure := 0
  z_fatigue := 0
  z_execution := 0
  z_bio := 0

/-- A minimal concrete MMIResult for aggregation inputs. -/
def sampleResult (g : String) (v : ℝ) : MMIResult where
  pitch_id := none
  game_id := g
  batter_id := "B1"
  pitcher_id := "P1"
  inning := 1
  mmi := v
  components := sampleComponents v
  timestamp := 0
  role := "pitcher"
  meta := .pitchMeta 0 1

/-- C9 counterexample: one pitcher with two results of mmi 0 and 2. The
summary's std field is sqrt 2 (sample standard deviation, divisor N-1),
while the population standard deviation of the group is 1; the two
disagree, refuting the population-stdev claim. -/
theorem summarize_std_population_counterexample :
    ((summarize_mmi_by_player [sampleResult "G1" 0, sampleResult "G2" 2]
        "pitcher" none "regular" 2024).map (fun s => s.std_mmi)) =
      [Real.sqrt 2] ∧
    pstdev ([sampleResult "G1" 0, sampleResult "G2" 2].map
      (fun r => r.mmi)) = 1 ∧
    Real.sqrt 2 ≠ 1 := by
  refine ⟨?_, ?_, ?_⟩
  · rw [summarize_std_is_sample_stdev]
    norm_num [groupKeys, groupOf, addKey, playerOf, sampleResult,
      List.filterMap, List.filter, stdev_sample]
  · norm_num [pstdev, sampleResult]
  · intro h
    have h2 := congrArg (fun x : ℝ => x ^ 2) h
    simp only [one_pow] at h2
    rw [Real.sq_sqrt (by norm_num : (0:ℝ) ≤ 2)] at h2
    norm_num at h2

/-- The leverage of a pitch as a pure function of its six-field game
state (what `calculate_leverage_for_pitch` computes and memoizes). -/
def pureLeverage (p : PitchEvent) : ℝ :=
  calculate_leverage_index p.inning p.top_of_inning p.outs p.base_state
    p.home_score p.away_score

lemma lev_zero_step (c : LeverageCache) (p : PitchEvent)
    (h0 : pureLeverage p = 0)
    (hc : cacheLookup c (make_cache_key p) = none ∨
      cacheLookup c (make_cache_key p) = some 0) :
    (calculate_leverage_for_pitch c p).1 = 0 ∧
    cacheLookup (calculate_leverage_for_pitch c p).2 (make_cache_key p) =
      some 0 ∧
    (∀ k w, cacheLookup c k = some w →
      cacheLookup (calculate_leverage_for_pitch c p).2 k = some w) ∧
    (∀ k, cacheLookup (calculate_leverage_for_pitch c p).2 k =
        cacheLookup c k ∨
      cacheLookup (calculate_leverage_for_pitch c p).2 k = some 0) := by
  have hli : calculate_leverage_index p.inning p.top_of_inning p.outs
      p.base_state p.home_score p.away_score = 0 := h0
  unfold calculate_leverage_for_pitch
  rcases hca : cacheLookup c (make_cache_key p) with _ | v
  · simp only [hca]
    refine ⟨hli, ?_, ?_, ?_⟩
    · rw [cacheInsert, cacheLookup_append, hca, if_pos rfl, hli]
    · intro k w hkw
      rw [cacheInsert, cacheLookup_append, hkw]
    · intro k
      rcases hk : cacheLookup c k with _ | w
      · rw [cacheInsert, cacheLookup_append, hk]
        by_cases hkey : make_cache_key p = k
        · right
          rw [if_pos hkey, hli]
        · left
          rw [if_neg hkey]
      · left
        rw [cacheInsert, cacheLookup_append, hk]
  · have hv : v = 0 := by
      rcases hc with h | h
      · rw [hca] at h
        cases h
      · rw [hca] at h
        exact Option.some.inj h
    subst hv
    refine ⟨?_, ?_, ?_, ?_⟩ <;> simp [hca]

lemma run_pa_pitches_zero (mc : MMICalculator) (role : String)
    (contexts : Option (List MMIContext)) (now : ℝ) :
    ∀ (ps : List PitchEvent) (i : ℕ) (c : LeverageCache),
      (∀ p ∈ ps, pureLeverage p = 0) →
      (∀ p ∈ ps, cacheLookup c (make_cache_key p) = none ∨
        cacheLookup c (make_cache_key p) = some 0) →
      ∀ rs c₁, run_pa_pitches mc role contexts now ps i c = .ok (rs, c₁) →
        (∀ r ∈ rs, r.components.leverage_index = 0) ∧
        (∀ k w, cacheLookup c k = some w → cacheLookup c₁ k = some w) ∧
        run_pa_pitches mc role contexts now ps i c₁ = .ok (rs, c₁)
  | [], i, c => by
    intro _ _ rs c₁ hrun
    simp only [run_pa_pitches, Except.ok.injEq, Prod.mk.injEq] at hrun
    obtain ⟨hrs, hc₁⟩ := hrun
    subst hrs
    subst hc₁
    exact ⟨by simp, fun k w hkw => hkw, by simp [run_pa_pitches]⟩
  | p :: rest, i, c => by
    intro h0 hc rs c₁ hrun
    by_cases hrole : role = "pitcher" ∨ role = "batter"
    · rw [run_pa_pitches] at hrun
      rw [compute_pitch_mmi_ok_form mc c p role _ now hrole] at hrun
      dsimp only at hrun
      obtain ⟨hl0, hlkey, hlmono, hllast⟩ :=
        lev_zero_step c p (h0 p (by simp)) (hc p (by simp))
      rcases hrest : run_pa_pitches mc role contexts now rest (i + 1)
          (calculate_leverage_for_pitch c p).2 with e | rsc
      · rw [hrest] at hrun
        cases hrun
      · rw [hrest] at hrun
        simp only [Except.ok.injEq, Prod.mk.injEq] at hrun
        obtain ⟨hrs, hc₁⟩ := hrun
        have hcrest : ∀ q ∈ rest,
            cacheLookup (calculate_leverage_for_pitch c p).2
              (make_cache_key q) = none ∨
            cacheLookup (calculate_leverage_for_pitch c p).2
              (make_cache_key q) = some 0 := by
          intro q hq
          rcases hllast (make_cache_key q) with h | h
          · rw [h]
            exact hc q (by simp [hq])
          · right
            exact h
        obtain ⟨ih0, ihmono, ihrerun⟩ :=
          run_pa_pitches_zero mc role contexts now rest (i + 1)
            (calculate_leverage_for_pitch c p).2
            (fun q hq => h0 q (by simp [hq])) hcrest rsc.1 rsc.2 hrest
        subst hrs
        subst hc₁
        refine ⟨?_, ?_, ?_⟩
        · intro r hr
          rcases List.mem_cons.mp hr with hr | hr
          · subst hr
            rw [pitch_mmi_result_leverage_index, hl0]
          · exact ih0 r hr
        · intro k w hkw
          exact ihmono k w (hlmono k w hkw)
        · rw [run_pa_pitches]
          have hhit : cacheLookup rsc.2 (make_cache_key p) = some 0 :=
            ihmono _ _ hlkey
          have hfp : calculate_leverage_for_pitch rsc.2 p = (0, rsc.2) := by
            unfold calculate_leverage_for_pitch
            dsimp only
            rw [hhit]
          rw [compute_pitch_mmi_ok_form mc rsc.2 p role _ now hrole, hfp]
          dsimp only
          rw [ihrerun, hl0]
    · rw [run_pa_pitches] at hrun
      rw [compute_pitch_mmi, if_pos (by exact hrole)] at hrun
      cases hrun

/-- C6: over a non-empty plate appearance whose pitches all carry raw
leverage index 0 (so the summed leverage is exactly 0), "weighted"
aggregation returns exactly the "mean" aggregation result — the same
`Except.ok` value with the same final cache, not an error. The cache
hypothesis says the incoming memo holds no stale nonzero value for any of
the pitches; the empty cache of a fresh calculator satisfies it. -/
theorem weighted_pa_mmi_falls_back_to_mean (mc : MMICalculator)
    (cache : LeverageCache) (pitches : List PitchEvent) (role : String)
    (contexts : Option (List MMIContext)) (now : ℝ)
    (hne : pitches ≠ [])
    (h0 : ∀ p ∈ pitches, pureLeverage p = 0)
    (hc : ∀ p ∈ pitches, cacheLookup cache (make_cache_key p) = none ∨
      cacheLookup cache (make_cache_key p) = some 0) :
    compute_pa_mmi mc cache pitches role "weighted" contexts now =
      compute_pa_mmi mc cache pitches role "mean" contexts now := by
  match pitches, hne with
  | p₀ :: rest, _ =>
    rw [compute_pa_mmi, compute_pa_mmi]
    rcases hrun : run_pa_pitches mc role contexts now (p₀ :: rest) 0 cache
        with e | rsc
    · simp
    · obtain ⟨hlev0, hmono, hrerun⟩ :=
        run_pa_pitches_zero mc role contexts now (p₀ :: rest) 0 cache h0 hc
          rsc.1 rsc.2 hrun
      have htot : (rsc.1.map (fun r => r.components.leverage_index)).sum = 0 := by
        apply List.sum_eq_zero
        intro x hx
        obtain ⟨r, hr, rfl⟩ := List.mem_map.mp hx
        exact hlev0 r hr
      simp only [reduceCtorEq, reduceIte, htot, if_pos rfl]
      rw [compute_pa_mmi]
      rw [hrerun]
      simp


/-- Witness for `weighted_pa_mmi_falls_back_to_mean`: `samplePitch` sits in
a terminal state (bottom of the 9th, home leading), where every simulated
outcome keeps the win probability at 1.0, so its leverage index is
exactly 0; the weighted PA over it equals the mean PA. -/
theorem weighted_pa_mmi_falls_back_to_mean_witness :
    [samplePitch] ≠ ([] : List PitchEvent) ∧
    (∀ p ∈ [samplePitch], pureLeverage p = 0) ∧
    (∀ p ∈ [samplePitch], cacheLookup [] (make_cache_key p) = none ∨
      cacheLookup [] (make_cache_key p) = some 0) ∧
    compute_pa_mmi (MMICalculator.make none none) [] [samplePitch] "pitcher"
        "weighted" none 0 =
      compute_pa_mmi (MMICalculator.make none none) [] [samplePitch] "pitcher"
        "mean" none 0 :=
  have h0 : ∀ p ∈ [samplePitch], pureLeverage p = 0 := by
    intro p hp
    simp only [List.mem_singleton] at hp
    subst hp
    norm_num [pureLeverage, samplePitch, calculate_leverage_index,
      calculate_win_prob, BaseState.runners_on_base]
  have hc : ∀ p ∈ [samplePitch], cacheLookup [] (make_cache_key p) = none ∨
      cacheLookup [] (make_cache_key p) = some 0 := by
    intro p _
    left
    rfl
  ⟨by simp, h0, hc,
    weighted_pa_mmi_falls_back_to_mean (MMICalculator.make none none) []
      [samplePitch] "pitcher" none 0 (by simp) h0 hc⟩


set_option maxHeartbeats 1600000 in
lemma run_expectancy_matrix_nonneg (outs : ℕ) (code : String) :
    0 ≤ run_expectancy_matrix outs code := by
  unfold run_expectancy_matrix
  split_ifs <;> norm_num

set_option maxHeartbeats 1600000 in
lemma run_expectancy_matrix_le (outs : ℕ) (code : String) :
    run_expectancy_matrix outs code ≤ 2.292 := by
  unfold run_expectancy_matrix
  split_ifs <;> norm_num

lemma exp_le_inv_one_sub {x : ℝ} (h : x < 1) :
    Real.exp x ≤ 1 / (1 - x) := by
  have h1 : 1 - x ≤ Real.exp (-x) := by
    have := Real.add_one_le_exp (-x)
    linarith
  have h2 : (0:ℝ) < 1 - x := by linarith
  have h3 : Real.exp x * (1 - x) ≤ Real.exp x * Real.exp (-x) :=
    mul_le_mul_of_nonneg_left h1 (Real.exp_pos x).le
  rw [← Real.exp_add] at h3
  simp only [add_neg_cancel, Real.exp_zero] at h3
  rw [le_div_iff h2]
  linarith

lemma exp_point76_le : Real.exp 0.76 ≤ 2.2 := by
  rw [show (0.76 : ℝ) = (16 : ℕ) * 0.0475 by norm_num, Real.exp_nat_mul]
  have h1 : Real.exp 0.0475 ≤ 1 / (1 - 0.0475) :=
    exp_le_inv_one_sub (by norm_num)
  calc Real.exp 0.0475 ^ 16 ≤ (1 / (1 - 0.0475)) ^ 16 :=
        pow_le_pow_left (Real.exp_pos _).le h1 16
    _ ≤ 2.2 := by norm_num

lemma sqrt8_ge : (2.8284 : ℝ) ≤ Real.sqrt 8 := by
  by_contra h
  push_neg at h
  have h2 : Real.sqrt 8 ^ 2 < 2.8284 ^ 2 :=
    pow_lt_pow_left h (Real.sqrt_nonneg 8) (by norm_num)
  rw [Real.sq_sqrt (by norm_num : (0:ℝ) ≤ 8)] at h2
  norm_num at h2

lemma sqrt17_le : Real.sqrt 17 ≤ 4.1232 := by
  calc Real.sqrt 17 ≤ Real.sqrt (4.1232 ^ 2) :=
        Real.sqrt_le_sqrt (by norm_num)
    _ = 4.1232 := Real.sqrt_sq (by norm_num)

lemma sigmoid_blend_step {x δ : ℝ} (ha : Real.exp (-x) ≤ 2.2)
    (hr : Real.exp (-δ) ≤ 0.892) :
    0.9 * sigmoid x + 0.054 ≤ sigmoid (x + δ) := by
  have ha0 : 0 < Real.exp (-x) := Real.exp_pos _
  have hr0 : 0 < Real.exp (-δ) := Real.exp_pos _
  set a := Real.exp (-x) with hadef
  set r := Real.exp (-δ) with hrdef
  have hxy : Real.exp (-(x + δ)) = a * r := by
    rw [neg_add, Real.exp_add]
  unfold sigmoid
  rw [hxy]
  have h1 : (0:ℝ) < 1 + a := by linarith
  have h2 : (0:ℝ) < 1 + a * r := by positivity
  rw [← sub_nonneg]
  have expand : 1.0 / (1.0 + a * r) - (0.9 * (1.0 / (1.0 + a)) + 0.054) =
      (0.046 + 0.946 * a - 0.954 * (a * r) - 0.054 * (a ^ 2 * r)) /
        ((1 + a) * (1 + a * r)) := by
    field_simp
    ring
  rw [expand]
  apply div_nonneg _ (by positivity)
  nlinarith [mul_nonneg ha0.le (sub_nonneg.mpr hr),
    mul_nonneg (mul_nonneg ha0.le hr0.le) (sub_nonneg.mpr ha)]


/-- `calculate_win_prob` as a function of the home-away score difference:
the body reads the two scores only through their difference and through
the comparisons `hs > as`, `hs = as`, which are determined by it. -/
def wp_from_diff (inning : ℕ) (top : Bool) (outs : ℕ) (b : BaseState)
    (d : ℤ) (ihb : Bool) : ℝ :=
  let innings_remaining : ℤ :=
    (9 - (inning : ℤ)) * 2 + (if top then 0 else 1)
  if 9 ≤ inning ∧ top = false ∧ 0 < d then 1.0
  else if 9 < inning ∧ top = true ∧ d ≠ 0 then
    (if 0 < d then 1.0 else 0.0)
  else
    let score_diff : ℝ := (d : ℝ)
    let run_expectancy := get_run_expectancy outs b
    let effective_diff :=
      if ihb then score_diff + run_expectancy
      else score_diff - run_expectancy
    if innings_remaining = 0 then
      (if 0 < d then 1.0 else if d = 0 then 0.5 else 0.0)
    else
      let innings_factor : ℝ := max 0.5 (innings_remaining : ℝ)
      let std_dev := 2.0 * Real.sqrt innings_factor
      let z_score := effective_diff / std_dev
      let win_prob := sigmoid z_score
      let win_prob :=
        if |score_diff| ≤ 2 ∧ inning ≤ 5 then
          win_prob * 0.9 + home_advantage * 0.1
        else win_prob
      max 0.0 (min 1.0 win_prob)

lemma calculate_win_prob_eq_diff (inning outs : ℕ) (top ihb : Bool)
    (b : BaseState) (hs as : ℕ) :
    calculate_win_prob inning top outs b hs as ihb =
      wp_from_diff inning top outs b ((hs : ℤ) - as) ihb := by
  have e1 : (as < hs) ↔ (0 < (hs : ℤ) - as) := by omega
  have e2 : (hs ≠ as) ↔ ((hs : ℤ) - as ≠ 0) := by omega
  have e3 : (hs = as) ↔ ((hs : ℤ) - as = 0) := by omega
  have e4 : ((hs : ℝ) - (as : ℝ)) = (((hs : ℤ) - as : ℤ) : ℝ) := by
    push_cast
    ring
  unfold calculate_win_prob wp_from_diff
  simp only [e1, e2, e3, e4]

/-- The non-shortcut branch of the win probability: sigmoid, optional
early-game blend, clamp. -/
def wp_core (inning : ℕ) (top ihb : Bool) (outs : ℕ) (b : BaseState)
    (d : ℤ) : ℝ :=
  let rem : ℤ := (9 - (inning : ℤ)) * 2 + (if top then 0 else 1)
  let e := get_run_expectancy outs b
  let eff : ℝ := if ihb then (d : ℝ) + e else (d : ℝ) - e
  let std_dev := 2.0 * Real.sqrt (max 0.5 (rem : ℝ))
  let w := sigmoid (eff / std_dev)
  let w :=
    if |(d : ℝ)| ≤ 2 ∧ inning ≤ 5 then w * 0.9 + home_advantage * 0.1
    else w
  max 0.0 (min 1.0 w)

lemma wp_from_diff_cases (inning : ℕ) (top ihb : Bool) (outs : ℕ)
    (b : BaseState) (d : ℤ) :
    wp_from_diff inning top outs b d ihb =
      if 9 ≤ inning ∧ top = false ∧ 0 < d then 1.0
      else if 9 < inning ∧ top = true ∧ d ≠ 0 then
        (if 0 < d then 1.0 else 0.0)
      else if ((9 - (inning : ℤ)) * 2 + (if top then 0 else 1)) = 0 then
        (if 0 < d then 1.0 else if d = 0 then 0.5 else 0.0)
      else wp_core inning top ihb outs b d := rfl

lemma clamp_mono {u v : ℝ} (h : u ≤ v) :
    max 0.0 (min 1.0 u) ≤ max 0.0 (min 1.0 v) :=
  max_le_max le_rfl (min_le_min le_rfl h)

lemma wp_core_nonneg (inning : ℕ) (top ihb : Bool) (outs : ℕ)
    (b : BaseState) (d : ℤ) : 0 ≤ wp_core inning top ihb outs b d := by
  unfold wp_core
  exact le_trans (by norm_num) (le_max_left _ _)

lemma wp_core_le_one (inning : ℕ) (top ihb : Bool) (outs : ℕ)
    (b : BaseState) (d : ℤ) : wp_core inning top ihb outs b d ≤ 1 := by
  unfold wp_core
  exact max_le (by norm_num) (le_trans (min_le_left _ _) (by norm_num))


lemma wp_core_mono (inning : ℕ) (h1 : 1 ≤ inning) (top ihb : Bool)
    (outs : ℕ) (b : BaseState) {d₁ d₂ : ℤ} (hd : d₁ ≤ d₂) :
    wp_core inning top ihb outs b d₁ ≤ wp_core inning top ihb outs b d₂ := by
  unfold wp_core
  dsimp only
  set rem : ℤ := (9 - (inning : ℤ)) * 2 + (if top = true then 0 else 1)
    with hremdef
  set e := get_run_expectancy outs b with hedef
  have he0 : 0 ≤ e := run_expectancy_matrix_nonneg outs _
  have he2 : e ≤ 2.292 := run_expectancy_matrix_le outs _
  set σ := 2.0 * Real.sqrt (max 0.5 (rem : ℝ)) with hσdef
  have hσ0 : 0 < σ := by
    have hmx : (0:ℝ) < max 0.5 (rem : ℝ) :=
      lt_of_lt_of_le (by norm_num) (le_max_left _ _)
    have hsq := Real.sqrt_pos.mpr hmx
    rw [hσdef]
    nlinarith
  have hdr : (d₁ : ℝ) ≤ (d₂ : ℝ) := by exact_mod_cast hd
  set eff₁ : ℝ := if ihb = true then (d₁ : ℝ) + e else (d₁ : ℝ) - e
    with heff1
  set eff₂ : ℝ := if ihb = true then (d₂ : ℝ) + e else (d₂ : ℝ) - e
    with heff2
  have heffle : eff₁ ≤ eff₂ := by
    rw [heff1, heff2]
    split_ifs <;> linarith
  have heffdiff : eff₂ - eff₁ = (d₂ : ℝ) - (d₁ : ℝ) := by
    rw [heff1, heff2]
    split_ifs <;> ring
  have hz : eff₁ / σ ≤ eff₂ / σ := (div_le_div_right hσ0).mpr heffle
  have hs := sigmoid_mono hz
  by_cases h5 : inning ≤ 5
  · -- early innings: the blend may apply; rem is between 8 and 17
    have hrem8 : (8:ℤ) ≤ rem := by
      rw [hremdef]
      cases top <;> simp <;> omega
    have hrem17 : rem ≤ 17 := by
      rw [hremdef]
      cases top <;> simp <;> omega
    have hremR8 : (8 : ℝ) ≤ (rem : ℝ) := by exact_mod_cast hrem8
    have hremR17 : (rem : ℝ) ≤ 17 := by exact_mod_cast hrem17
    have hmax : max 0.5 (rem : ℝ) = (rem : ℝ) := max_eq_right (by linarith)
    have hσlo : 5.6568 ≤ σ := by
      rw [hσdef, hmax]
      have h8 : Real.sqrt 8 ≤ Real.sqrt (rem : ℝ) := Real.sqrt_le_sqrt hremR8
      nlinarith [sqrt8_ge]
    have hσhi : σ ≤ 8.2464 := by
      rw [hσdef, hmax]
      have h17 : Real.sqrt (rem : ℝ) ≤ Real.sqrt 17 := Real.sqrt_le_sqrt hremR17
      nlinarith [sqrt17_le]
    have hδbound : ∀ dd : ℝ, 1 ≤ dd →
        Real.exp (-(dd / σ)) ≤ 0.892 := by
      intro dd hdd
      have hδlo : 1 / 8.2464 ≤ dd / σ := by
        calc (1:ℝ) / 8.2464 ≤ 1 / σ := by
              apply one_div_le_one_div_of_le hσ0 hσhi
          _ ≤ dd / σ := (div_le_div_right hσ0).mpr hdd
      have hδpos : (0:ℝ) < dd / σ := lt_of_lt_of_le (by norm_num) hδlo
      have h1δ : 1 + dd / σ ≤ Real.exp (dd / σ) := by
        linarith [Real.add_one_le_exp (dd / σ)]
      rw [Real.exp_neg]
      have h1δpos : (0:ℝ) < 1 + dd / σ := by linarith
      have hstep1 : (Real.exp (dd / σ))⁻¹ ≤ (1 + dd / σ)⁻¹ := by
        apply inv_le_inv_of_le h1δpos h1δ
      have hstep2 : ((1:ℝ) + dd / σ)⁻¹ ≤ 0.892 := by
        rw [inv_le h1δpos (by norm_num : (0:ℝ) < 0.892)]
        have hn : (0.892:ℝ)⁻¹ ≤ 1 + 1 / 8.2464 := by norm_num
        linarith
      linarith
    have hexp22 : ∀ t : ℝ, t ≤ 4.292 → Real.exp (t / σ) ≤ 2.2 := by
      intro t ht
      have hb76 : t / σ ≤ 0.76 := by
        by_cases htpos : 0 ≤ t
        · calc t / σ ≤ 4.292 / σ := (div_le_div_right hσ0).mpr ht
            _ ≤ 4.292 / 5.6568 := by
                apply div_le_div_of_nonneg_left (by norm_num) (by norm_num) hσlo
            _ ≤ 0.76 := by norm_num
        · push_neg at htpos
          have : t / σ ≤ 0 := le_of_lt (div_neg_of_neg_of_pos htpos hσ0)
          linarith
      calc Real.exp (t / σ) ≤ Real.exp 0.76 := Real.exp_le_exp.mpr hb76
        _ ≤ 2.2 := exp_point76_le
    by_cases hb1 : |(d₁ : ℝ)| ≤ 2 <;> by_cases hb2 : |(d₂ : ℝ)| ≤ 2
    · rw [if_pos ⟨hb1, h5⟩, if_pos ⟨hb2, h5⟩]
      apply clamp_mono
      linarith [hs]
    · -- d₁ in the blend region, d₂ above it
      rw [if_pos ⟨hb1, h5⟩, if_neg (fun hcon => hb2 hcon.1)]
      apply clamp_mono
      have hd1lo : (-2:ℝ) ≤ (d₁ : ℝ) := (abs_le.mp hb1).1
      have hd1hi : (d₁ : ℝ) ≤ 2 := (abs_le.mp hb1).2
      have h2lt : (2:ℝ) < (d₂ : ℝ) := by
        by_contra hcon
        push_neg at hcon
        exact hb2 (abs_le.mpr ⟨by linarith, hcon⟩)
      have hd21 : (1:ℝ) ≤ (d₂ : ℝ) - (d₁ : ℝ) := by
        have hz1 : d₁ ≤ 2 := by exact_mod_cast hd1hi
        have hz2 : (2:ℤ) < d₂ := by exact_mod_cast h2lt
        have : (d₁:ℝ) + 1 ≤ (d₂:ℝ) := by exact_mod_cast (by omega : d₁ + 1 ≤ d₂)
        linarith
      have ha : Real.exp (-(eff₁ / σ)) ≤ 2.2 := by
        rw [← neg_div]
        apply hexp22
        rw [heff1]
        split_ifs <;> linarith
      have hr : Real.exp (-((eff₂ - eff₁) / σ)) ≤ 0.892 := by
        apply hδbound
        rw [heffdiff]
        linarith
      have hstep := sigmoid_blend_step ha hr
      have hxδ : eff₁ / σ + (eff₂ - eff₁) / σ = eff₂ / σ := by
        field_simp
      rw [hxδ] at hstep
      have hha : home_advantage * 0.1 = 0.054 := by norm_num [home_advantage]
      rw [hha]
      linarith
    · -- d₁ below the blend region, d₂ inside it
      rw [if_neg (fun hcon => hb1 hcon.1), if_pos ⟨hb2, h5⟩]
      apply clamp_mono
      have hd2lo : (-2:ℝ) ≤ (d₂ : ℝ) := (abs_le.mp hb2).1
      have hd2hi : (d₂ : ℝ) ≤ 2 := (abs_le.mp hb2).2
      have h2lt : (d₁ : ℝ) < -2 := by
        by_contra hcon
        push_neg at hcon
        exact hb1 (abs_le.mpr ⟨hcon, by linarith⟩)
      have hd21 : (1:ℝ) ≤ (d₂ : ℝ) - (d₁ : ℝ) := by
        have hz1 : d₁ < -2 := by exact_mod_cast h2lt
        have hz2 : (-2:ℤ) ≤ d₂ := by exact_mod_cast hd2lo
        have : (d₁:ℝ) + 1 ≤ (d₂:ℝ) := by exact_mod_cast (by omega : d₁ + 1 ≤ d₂)
        linarith
      have ha : Real.exp (-(-(eff₂ / σ))) ≤ 2.2 := by
        rw [neg_neg]
        apply hexp22
        rw [heff2]
        split_ifs <;> linarith
      have hr : Real.exp (-((eff₂ - eff₁) / σ)) ≤ 0.892 := by
        apply hδbound
        rw [heffdiff]
        linarith
      have hstep := sigmoid_blend_step ha hr
      have hxδ : -(eff₂ / σ) + (eff₂ - eff₁) / σ = -(eff₁ / σ) := by
        field_simp
        ring
      rw [hxδ, sigmoid_neg_eq, sigmoid_neg_eq] at hstep
      have hha : home_advantage * 0.1 = 0.054 := by norm_num [home_advantage]
      rw [hha]
      linarith
    · rw [if_neg (fun hcon => hb1 hcon.1), if_neg (fun hcon => hb2 hcon.1)]
      exact clamp_mono hs
  · rw [if_neg (fun hcon => h5 hcon.2), if_neg (fun hcon => h5 hcon.2)]
    exact clamp_mono hs


lemma wp_from_diff_mono (inning : ℕ) (h1 : 1 ≤ inning) (top ihb : Bool)
    (outs : ℕ) (b : BaseState) {d₁ d₂ : ℤ} (hd : d₁ ≤ d₂) :
    wp_from_diff inning top outs b d₁ ihb ≤
      wp_from_diff inning top outs b d₂ ihb := by
  rw [wp_from_diff_cases, wp_from_diff_cases]
  cases top with
  | false =>
    have hrem : ¬((9 - (inning : ℤ)) * 2 +
        (if (false : Bool) = true then 0 else 1) = 0) := by
      rw [if_neg (by decide)]
      omega
    rw [if_neg (show ¬(9 < inning ∧ (false : Bool) = true ∧ d₁ ≠ 0) from
        fun h => absurd h.2.1 (by decide)),
      if_neg (show ¬(9 < inning ∧ (false : Bool) = true ∧ d₂ ≠ 0) from
        fun h => absurd h.2.1 (by decide)),
      if_neg hrem, if_neg hrem]
    by_cases hc2 : 9 ≤ inning ∧ (false : Bool) = false ∧ 0 < d₂
    · rw [if_pos hc2]
      split_ifs
      · norm_num
      · exact le_trans (wp_core_le_one inning false ihb outs b d₁) (by norm_num)
    · have hnc1 : ¬(9 ≤ inning ∧ (false : Bool) = false ∧ 0 < d₁) :=
        fun h => hc2 ⟨h.1, rfl, lt_of_lt_of_le h.2.2 hd⟩
      rw [if_neg hc2, if_neg hnc1]
      exact wp_core_mono inning h1 false ihb outs b hd
  | true =>
    rw [if_neg (show ¬(9 ≤ inning ∧ (true : Bool) = false ∧ 0 < d₁) from
        fun h => absurd h.2.1 (by decide)),
      if_neg (show ¬(9 ≤ inning ∧ (true : Bool) = false ∧ 0 < d₂) from
        fun h => absurd h.2.1 (by decide))]
    by_cases h9 : inning = 9
    · subst h9
      have hrem : ((9 - ((9 : ℕ) : ℤ)) * 2 +
          (if (true : Bool) = true then 0 else 1) = 0) := by
        rw [if_pos rfl]
        norm_num
      rw [if_neg (show ¬(9 < 9 ∧ (true : Bool) = true ∧ d₁ ≠ 0) from
          fun h => absurd h.1 (by omega)),
        if_neg (show ¬(9 < 9 ∧ (true : Bool) = true ∧ d₂ ≠ 0) from
          fun h => absurd h.1 (by omega)),
        if_pos hrem, if_pos hrem]
      split_ifs <;> (try norm_num) <;> omega
    · by_cases h9b : inning < 9
      · have hrem : ¬((9 - (inning : ℤ)) * 2 +
            (if (true : Bool) = true then 0 else 1) = 0) := by
          rw [if_pos rfl]
          omega
        rw [if_neg (show ¬(9 < inning ∧ (true : Bool) = true ∧ d₁ ≠ 0) from
            fun h => absurd h.1 (by omega)),
          if_neg (show ¬(9 < inning ∧ (true : Bool) = true ∧ d₂ ≠ 0) from
            fun h => absurd h.1 (by omega)),
          if_neg hrem, if_neg hrem]
        exact wp_core_mono inning h1 true ihb outs b hd
      · have h9c : 9 < inning := by omega
        have hrem : ¬((9 - (inning : ℤ)) * 2 +
            (if (true : Bool) = true then 0 else 1) = 0) := by
          rw [if_pos rfl]
          omega
        rw [if_neg hrem, if_neg hrem]
        by_cases hz1 : d₁ = 0 <;> by_cases hz2 : d₂ = 0
        · subst hz1
          subst hz2
          rw [if_neg (show ¬(9 < inning ∧ (true : Bool) = true ∧
              (0 : ℤ) ≠ 0) from fun h => absurd h.2.2 (by omega))]
        · subst hz1
          rw [if_neg (show ¬(9 < inning ∧ (true : Bool) = true ∧
              (0 : ℤ) ≠ 0) from fun h => absurd h.2.2 (by omega)),
            if_pos (show 9 < inning ∧ (true : Bool) = true ∧ d₂ ≠ 0 from
              ⟨h9c, rfl, hz2⟩),
            if_pos (show (0:ℤ) < d₂ by omega)]
          exact le_trans (wp_core_le_one inning true ihb outs b 0) (by norm_num)
        · subst hz2
          rw [if_pos (show 9 < inning ∧ (true : Bool) = true ∧ d₁ ≠ 0 from
              ⟨h9c, rfl, hz1⟩),
            if_neg (show ¬(9 < inning ∧ (true : Bool) = true ∧
              (0 : ℤ) ≠ 0) from fun h => absurd h.2.2 (by omega)),
            if_neg (show ¬((0:ℤ) < d₁) by omega)]
          exact le_trans (by norm_num) (wp_core_nonneg inning true ihb outs b 0)
        · rw [if_pos (show 9 < inning ∧ (true : Bool) = true ∧ d₁ ≠ 0 from
              ⟨h9c, rfl, hz1⟩),
            if_pos (show 9 < inning ∧ (true : Bool) = true ∧ d₂ ≠ 0 from
              ⟨h9c, rfl, hz2⟩)]
          split_ifs <;> (try norm_num) <;> omega

/-- C3: the home-team win probability is monotonically non-decreasing in
the home run-differential, with inning, half, outs, bases and the
is-home-batting flag fixed — including across the early-game 0.9/0.1
home-advantage blend boundary at |scoreDiff| = 2 and across the terminal
shortcuts of innings 9 and beyond. -/
theorem win_prob_monotone_in_run_diff (inning outs : ℕ) (top ihb : Bool)
    (b : BaseState) (hs₁ as₁ hs₂ as₂ : ℕ) (h1 : 1 ≤ inning)
    (hd : (hs₁ : ℤ) - as₁ ≤ (hs₂ : ℤ) - as₂) :
    calculate_win_prob inning top outs b hs₁ as₁ ihb ≤
      calculate_win_prob inning top outs b hs₂ as₂ ihb := by
  rw [calculate_win_prob_eq_diff, calculate_win_prob_eq_diff]
  exact wp_from_diff_mono inning h1 top ihb outs b hd

/-- Witness for `win_prob_monotone_in_run_diff`: in the top of the 4th
with a runner on second and one out, trailing by one is no better for the
home team than leading by two (crossing the blend boundary). -/
theorem win_prob_monotone_in_run_diff_witness :
    1 ≤ 4 ∧ ((1 : ℤ) - 2 ≤ (3 : ℤ) - 1) ∧
      calculate_win_prob 4 true 1 ⟨false, true, false⟩ 1 2 false ≤
        calculate_win_prob 4 true 1 ⟨false, true, false⟩ 3 1 false :=
  ⟨by norm_num, by norm_num,
    win_prob_monotone_in_run_diff 4 1 true false ⟨false, true, false⟩ 1 2 3 1
      (by norm_num) (by norm_num)⟩

end MMI
